import Mathlib

/-!
In-memory user-management store: embedding and verified properties.

The Go program keeps thirteen package-level collections behind one
read-write lock (`repository.go`) and exposes them through HTTP handlers
(`handlers.go`).  Every store operation runs to completion while holding the
lock, so an operation is modelled as a pure function from the store before to
the store after.

Modelling conventions

* `time.Time` is an instant on a linear time line (`Int`).  Every call of
  `time.Now()` in the source is an explicit argument of the embedded
  operation, in source order.
* `int` is the 64-bit Go integer: arithmetic that can overflow goes through
  `wrapInt64`.
* A Go map `map[string]*T` is a function `String → Option T`; a map of slices
  `map[string][]*T` is a function `String → List T` (a missing key reads as
  the nil slice, which is identified with the empty slice).
* The handlers hand every store operation a freshly allocated record, so the
  cells of the maps never alias each other and records are stored by value.
* A Go `error` result is `Option String` (`none` is `nil`); a `(value, error)`
  result is `Except String value`; a run-time panic is `none`.
-/

namespace UsersManagement

/-! ## Data model (`models.go`) -/

/-- Instants of `time.Time`, totally ordered. -/
abbrev Time := Int

/-- Free-form payloads (`map[string]interface{}`): keys with their encoded
values.  No operation of the store inspects them. -/
abbrev JSONObject := List (String × String)

structure User where
  ID : String
  Email : String
  Username : String
  Password : String
  FirstName : String
  LastName : String
  RoleID : String
  TeamID : String
  IsActive : Bool
  CreatedAt : Time
  UpdatedAt : Time
  deriving DecidableEq, Repr

structure Role where
  ID : String
  Name : String
  Description : String
  Permissions : List String
  CreatedAt : Time
  deriving DecidableEq, Repr

structure UserProfile where
  ID : String
  UserID : String
  Avatar : String
  Bio : String
  PhoneNumber : String
  Location : String
  Company : String
  Website : String
  UpdatedAt : Time
  deriving DecidableEq, Repr

structure Team where
  ID : String
  Name : String
  Description : String
  OwnerID : String
  MemberCount : Int
  CreatedAt : Time
  UpdatedAt : Time
  deriving DecidableEq, Repr

structure TeamMember where
  ID : String
  TeamID : String
  UserID : String
  Role : String
  JoinedAt : Time
  deriving DecidableEq, Repr

structure AuditLog where
  ID : String
  UserID : String
  Action : String
  ResourceID : String
  ResourceType : String
  IPAddress : String
  UserAgent : String
  Status : String
  Details : JSONObject
  CreatedAt : Time
  deriving DecidableEq, Repr

structure PasswordReset where
  ID : String
  UserID : String
  Token : String
  ExpiresAt : Time
  Used : Bool
  CreatedAt : Time
  deriving DecidableEq, Repr

structure Session where
  ID : String
  UserID : String
  Token : String
  IPAddress : String
  UserAgent : String
  ExpiresAt : Time
  LastActivity : Time
  CreatedAt : Time
  deriving DecidableEq, Repr

structure UserPreferences where
  ID : String
  UserID : String
  Theme : String
  Language : String
  Timezone : String
  Notifications : List (String × Bool)
  Settings : JSONObject
  UpdatedAt : Time
  deriving DecidableEq, Repr

structure ActivityLog where
  ID : String
  UserID : String
  ActivityType : String
  Description : String
  Metadata : JSONObject
  IPAddress : String
  CreatedAt : Time
  deriving DecidableEq, Repr

structure Invitation where
  ID : String
  Email : String
  TeamID : String
  RoleID : String
  InvitedBy : String
  Token : String
  Status : String
  ExpiresAt : Time
  AcceptedAt : Option Time
  CreatedAt : Time
  deriving DecidableEq, Repr

structure Permission where
  ID : String
  Name : String
  Resource : String
  Action : String
  Description : String
  CreatedAt : Time
  deriving DecidableEq, Repr

structure UserPermission where
  ID : String
  UserID : String
  PermissionID : String
  GrantedBy : String
  GrantedAt : Time
  deriving DecidableEq, Repr

/-! ## The store (`repository.go`, package-level variables) -/

/-- Assignment `m[k] = v` on a Go map. -/
def mapInsert {V : Type} (m : String → Option V) (k : String) (v : V) : String → Option V :=
  fun k2 => if k2 = k then some v else m k2

/-- Builtin `delete(m, k)` on a Go map. -/
def mapDelete {V : Type} (m : String → Option V) (k : String) : String → Option V :=
  fun k2 => if k2 = k then none else m k2

/-- Assignment `m[k] = xs` on a Go map of slices. -/
def sliceMapSet {V : Type} (m : String → List V) (k : String) (xs : List V) : String → List V :=
  fun k2 => if k2 = k then xs else m k2

/-- Two's-complement wrap-around of 64-bit `int` arithmetic. -/
def wrapInt64 (x : Int) : Int := (x + 2 ^ 63) % 2 ^ 64 - 2 ^ 63

structure Store where
  users : String → Option User
  roles : String → Option Role
  profiles : String → Option UserProfile
  teams : String → Option Team
  teamMembers : String → List TeamMember
  auditLogs : List AuditLog
  passwordResets : String → Option PasswordReset
  sessions : String → Option Session
  preferences : String → Option UserPreferences
  activityLogs : List ActivityLog
  invitations : String → Option Invitation
  permissions : String → Option Permission
  userPermissions : String → List UserPermission

/-- The collections as the `var` block creates them, before `initializeData`. -/
def emptyStore : Store where
  users := fun _ => none
  roles := fun _ => none
  profiles := fun _ => none
  teams := fun _ => none
  teamMembers := fun _ => []
  auditLogs := []
  passwordResets := fun _ => none
  sessions := fun _ => none
  preferences := fun _ => none
  activityLogs := []
  invitations := fun _ => none
  permissions := fun _ => none
  userPermissions := fun _ => []

/-! ## Store operations (`repository.go`)

Mutating operations return the Go `error` together with the store after the
call.  The arguments named `t`, `t1`, `t2` are the readings of `time.Now()`. -/

def createUser (s : Store) (user : User) (t1 t2 : Time) : Option String × Store :=
  if (s.users user.ID).isSome then
    (some "user already exists", s)
  else
    let user := { user with CreatedAt := t1 }
    let user := { user with UpdatedAt := t2 }
    (none, { s with users := mapInsert s.users user.ID user })

def getUser (s : Store) (id : String) : Except String User :=
  match s.users id with
  | some user => .ok user
  | none => .error "user not found"

def updateUser (s : Store) (id : String) (updatedUser : User) (t : Time) : Option String × Store :=
  if (s.users id).isSome then
    let updatedUser := { updatedUser with UpdatedAt := t }
    (none, { s with users := mapInsert s.users id updatedUser })
  else
    (some "user not found", s)

def getRole (s : Store) (id : String) : Except String Role :=
  match s.roles id with
  | some role => .ok role
  | none => .error "role not found"

def createRole (s : Store) (role : Role) (t : Time) : Option String × Store :=
  let role := { role with CreatedAt := t }
  (none, { s with roles := mapInsert s.roles role.ID role })

def createProfile (s : Store) (profile : UserProfile) (t : Time) : Option String × Store :=
  let profile := { profile with UpdatedAt := t }
  (none, { s with profiles := mapInsert s.profiles profile.ID profile })

def updateProfile (s : Store) (id : String) (updatedProfile : UserProfile) (t : Time) :
    Option String × Store :=
  let updatedProfile := { updatedProfile with UpdatedAt := t }
  (none, { s with profiles := mapInsert s.profiles id updatedProfile })

def createTeam (s : Store) (team : Team) (t1 t2 : Time) : Option String × Store :=
  let team := { team with CreatedAt := t1 }
  let team := { team with UpdatedAt := t2 }
  (none, { s with teams := mapInsert s.teams team.ID team })

def getTeam (s : Store) (id : String) : Except String Team :=
  match s.teams id with
  | some team => .ok team
  | none => .error "team not found"

/-- The reading `t2` is taken only when the team exists. -/
def addTeamMember (s : Store) (member : TeamMember) (t1 t2 : Time) : Option String × Store :=
  let member := { member with JoinedAt := t1 }
  let s1 := { s with
    teamMembers := sliceMapSet s.teamMembers member.TeamID (s.teamMembers member.TeamID ++ [member]) }
  match s1.teams member.TeamID with
  | some team =>
    let team := { team with MemberCount := wrapInt64 (team.MemberCount + 1) }
    let team := { team with UpdatedAt := t2 }
    (none, { s1 with teams := mapInsert s1.teams member.TeamID team })
  | none => (none, s1)

def getTeamMembers (s : Store) (teamID : String) : List TeamMember :=
  s.teamMembers teamID

def createAuditLog (s : Store) (log : AuditLog) (t : Time) : Option String × Store :=
  let log := { log with CreatedAt := t }
  (none, { s with auditLogs := s.auditLogs ++ [log] })

/-- The slice expression `auditLogs[start:]` panics unless
`0 ≤ start ≤ len(auditLogs)`; the panic is `none`. -/
def getAuditLogs (s : Store) (limit : Int) : Option (List AuditLog) :=
  let len : Int := s.auditLogs.length
  let limit := if limit > len then len else limit
  let start := wrapInt64 (len - limit)
  let start := if start < 0 then 0 else start
  if 0 ≤ start ∧ start ≤ len then some (s.auditLogs.drop start.toNat) else none

def createPasswordReset (s : Store) (reset : PasswordReset) (t : Time) : Option String × Store :=
  let reset := { reset with CreatedAt := t }
  (none, { s with passwordResets := mapInsert s.passwordResets reset.Token reset })

def getPasswordResetByToken (s : Store) (token : String) : Except String PasswordReset :=
  match s.passwordResets token with
  | some reset => .ok reset
  | none => .error "reset token not found"

def markPasswordResetAsUsed (s : Store) (token : String) : Option String × Store :=
  match s.passwordResets token with
  | some reset =>
    (none, { s with passwordResets := mapInsert s.passwordResets token { reset with Used := true } })
  | none => (some "reset token not found", s)

def createSession (s : Store) (session : Session) (t1 t2 : Time) : Option String × Store :=
  let session := { session with CreatedAt := t1 }
  let session := { session with LastActivity := t2 }
  (none, { s with sessions := mapInsert s.sessions session.Token session })

def getSessionByToken (s : Store) (token : String) : Except String Session :=
  match s.sessions token with
  | some session => .ok session
  | none => .error "session not found"

def deleteSession (s : Store) (token : String) : Option String × Store :=
  (none, { s with sessions := mapDelete s.sessions token })

def createPreferences (s : Store) (prefs : UserPreferences) (t : Time) : Option String × Store :=
  let prefs := { prefs with UpdatedAt := t }
  (none, { s with preferences := mapInsert s.preferences prefs.UserID prefs })

def getPreferencesByUserID (s : Store) (userID : String) : Except String UserPreferences :=
  match s.preferences userID with
  | some prefs => .ok prefs
  | none => .error "preferences not found"

def updatePreferences (s : Store) (userID : String) (updatedPrefs : UserPreferences) (t : Time) :
    Option String × Store :=
  let updatedPrefs := { updatedPrefs with UpdatedAt := t }
  (none, { s with preferences := mapInsert s.preferences userID updatedPrefs })

def createActivityLog (s : Store) (log : ActivityLog) (t : Time) : Option String × Store :=
  let log := { log with CreatedAt := t }
  (none, { s with activityLogs := s.activityLogs ++ [log] })

/-- The loop of `getUserActivityLogs`.  The first argument `k` is `i + 1` for
the loop index `i`, so `k = 0` is the exit `i < 0`; the last argument is
`userLogs`. -/
def getUserActivityLogsLoop (logs : List ActivityLog) (userID : String) (limit : Int) :
    Nat → List ActivityLog → List ActivityLog
  | 0, userLogs => userLogs
  | i + 1, userLogs =>
    if (userLogs.length : Int) < limit then
      match logs.get? i with
      | some log =>
        if log.UserID = userID then
          getUserActivityLogsLoop logs userID limit i (userLogs ++ [log])
        else
          getUserActivityLogsLoop logs userID limit i userLogs
      | none => userLogs
    else
      userLogs

def getUserActivityLogs (s : Store) (userID : String) (limit : Int) : List ActivityLog :=
  getUserActivityLogsLoop s.activityLogs userID limit s.activityLogs.length []

def createInvitation (s : Store) (invitation : Invitation) (t : Time) : Option String × Store :=
  let invitation := { invitation with CreatedAt := t }
  (none, { s with invitations := mapInsert s.invitations invitation.Token invitation })

def getInvitationByToken (s : Store) (token : String) : Except String Invitation :=
  match s.invitations token with
  | some invitation => .ok invitation
  | none => .error "invitation not found"

/-- The reading `t` is taken only when `status` is `"accepted"`. -/
def updateInvitationStatus (s : Store) (token : String) (status : String) (t : Time) :
    Option String × Store :=
  match s.invitations token with
  | some invitation =>
    let invitation := { invitation with Status := status }
    let invitation :=
      if status = "accepted" then { invitation with AcceptedAt := some t } else invitation
    (none, { s with invitations := mapInsert s.invitations token invitation })
  | none => (some "invitation not found", s)

def grantUserPermission (s : Store) (userPerm : UserPermission) (t : Time) : Option String × Store :=
  let userPerm := { userPerm with GrantedAt := t }
  (none, { s with
    userPermissions :=
      sliceMapSet s.userPermissions userPerm.UserID (s.userPermissions userPerm.UserID ++ [userPerm]) })

def getUserPermissions (s : Store) (userID : String) : List UserPermission :=
  s.userPermissions userID

/-- The `for i, perm := range perms` loop of `revokeUserPermission`: the index
of the first entry with the permission ID, counted from `i`. -/
def revokeUserPermissionLoop (permissionID : String) : List UserPermission → Nat → Option Nat
  | [], _ => none
  | perm :: rest, i =>
    if perm.PermissionID = permissionID then some i
    else revokeUserPermissionLoop permissionID rest (i + 1)

def revokeUserPermission (s : Store) (userID permissionID : String) : Option String × Store :=
  let perms := s.userPermissions userID
  match revokeUserPermissionLoop permissionID perms 0 with
  | some i =>
    (none, { s with
      userPermissions := sliceMapSet s.userPermissions userID (perms.take i ++ perms.drop (i + 1)) })
  | none => (some "permission not found for user", s)

/-! ## Identifier generation (`handlers.go`) -/

/-- The buffer `make([]byte, 8)` after `rand.Read` has filled it. -/
structure RandomBytes where
  data : List (Fin 256)
  size_eq : data.length = 8

/-- The digit table of `encoding/hex`. -/
def hextable : String := "0123456789abcdef"

/-- Two digits per byte, `hextable[b >> 4]` then `hextable[b & 0x0f]` (`hex.Encode`). -/
def hexEncode : List (Fin 256) → List Char
  | [] => []
  | b :: rest =>
    hextable.data.getD (b.val / 16) '0' :: hextable.data.getD (b.val % 16) '0' :: hexEncode rest

def hexEncodeToString (bytes : List (Fin 256)) : String :=
  String.mk (hexEncode bytes)

def generateID (pfx : String) (bytes : RandomBytes) : String :=
  pfx ++ "-" ++ hexEncodeToString bytes.data

/-! ## Handlers (`handlers.go`)

A handler receives the decoded request, the readings of the clock and of the
random source in source order, and the store; it returns the response it
writes and the store after the request. -/

/-- A response `c.JSON(status, gin.H{key: text})`. -/
structure Response where
  status : Nat
  body : JSONObject
  deriving DecidableEq, Repr

/-- The anonymous request struct of `resetPasswordHandler`. -/
structure ResetPasswordRequest where
  Token : String
  NewPassword : String
  deriving DecidableEq, Repr

/-- In `resetPasswordHandler`, `request` is the result of `c.BindJSON` (`none`
when binding fails), `now` the clock at the expiry check, `idBytes` and `tLog`
the random bytes and the clock of the audit entry.  The fields that the
`AuditLog` literal omits hold their zero values. -/
def resetPasswordHandler (s : Store) (request : Option ResetPasswordRequest) (clientIP : String)
    (now : Time) (idBytes : RandomBytes) (tLog : Time) : Response × Store :=
  match request with
  | none => ({ status := 400, body := [("error", "Invalid request")] }, s)
  | some request =>
    match getPasswordResetByToken s request.Token with
    | .error _ => ({ status := 404, body := [("error", "Invalid reset token")] }, s)
    | .ok reset =>
      if reset.Used then
        ({ status := 400, body := [("error", "Token already used")] }, s)
      else if now > reset.ExpiresAt then
        ({ status := 400, body := [("error", "Token expired")] }, s)
      else
        let s1 := (markPasswordResetAsUsed s request.Token).2
        let s2 := (createAuditLog s1
          { ID := generateID "audit" idBytes
            UserID := reset.UserID
            Action := "password.reset"
            ResourceID := reset.UserID
            ResourceType := "user"
            IPAddress := clientIP
            UserAgent := ""
            Status := "success"
            Details := []
            CreatedAt := 0 } tLog).2
        ({ status := 200, body := [("message", "Password reset successful")] }, s2)

/-- In `acceptInvitationHandler`, `now` is the clock at the expiry check and
`tAccept` the clock inside `updateInvitationStatus`. -/
def acceptInvitationHandler (s : Store) (token : String) (now tAccept : Time) : Response × Store :=
  match getInvitationByToken s token with
  | .error _ => ({ status := 404, body := [("error", "Invitation not found")] }, s)
  | .ok invitation =>
    if invitation.Status ≠ "pending" then
      ({ status := 400, body := [("error", "Invitation already processed")] }, s)
    else if now > invitation.ExpiresAt then
      let s1 := (updateInvitationStatus s token "expired" tAccept).2
      ({ status := 400, body := [("error", "Invitation expired")] }, s1)
    else
      match updateInvitationStatus s token "accepted" tAccept with
      | (some err, s1) => ({ status := 500, body := [("error", err)] }, s1)
      | (none, s1) => ({ status := 200, body := [("message", "Invitation accepted")] }, s1)

/-! ## Sequences of calls -/

/-- A call of one of the two team operations, with its clock readings. -/
inductive TeamCall where
  | createTeam (team : Team) (t1 t2 : Time)
  | addTeamMember (member : TeamMember) (t1 t2 : Time)

def runTeamCall (s : Store) : TeamCall → Store
  | .createTeam team t1 t2 => (createTeam s team t1 t2).2
  | .addTeamMember member t1 t2 => (addTeamMember s member t1 t2).2

def runTeamCalls (s : Store) : List TeamCall → Store
  | [] => s
  | call :: rest => runTeamCalls (runTeamCall s call) rest

/-- Every `createTeam` call of the sequence supplies `member_count` 0 (as
`createTeamHandler` does) for an ID under which no member is stored at the
moment of the call. -/
def createsAreFresh (s : Store) : List TeamCall → Bool
  | [] => true
  | .createTeam team t1 t2 :: rest =>
    decide (team.MemberCount = 0) && (s.teamMembers team.ID).isEmpty &&
      createsAreFresh (createTeam s team t1 t2).2 rest
  | .addTeamMember member t1 t2 :: rest =>
    createsAreFresh (addTeamMember s member t1 t2).2 rest

/-- A call of any mutating store operation, with its clock readings. -/
inductive StoreOp where
  | createUser (user : User) (t1 t2 : Time)
  | updateUser (id : String) (updatedUser : User) (t : Time)
  | createRole (role : Role) (t : Time)
  | createProfile (profile : UserProfile) (t : Time)
  | updateProfile (id : String) (updatedProfile : UserProfile) (t : Time)
  | createTeam (team : Team) (t1 t2 : Time)
  | addTeamMember (member : TeamMember) (t1 t2 : Time)
  | createAuditLog (log : AuditLog) (t : Time)
  | createPasswordReset (reset : PasswordReset) (t : Time)
  | markPasswordResetAsUsed (token : String)
  | createSession (session : Session) (t1 t2 : Time)
  | deleteSession (token : String)
  | createPreferences (prefs : UserPreferences) (t : Time)
  | updatePreferences (userID : String) (updatedPrefs : UserPreferences) (t : Time)
  | createActivityLog (log : ActivityLog) (t : Time)
  | createInvitation (invitation : Invitation) (t : Time)
  | updateInvitationStatus (token : String) (status : String) (t : Time)
  | grantUserPermission (userPerm : UserPermission) (t : Time)
  | revokeUserPermission (userID permissionID : String)

def runStoreOp (s : Store) : StoreOp → Option String × Store
  | .createUser user t1 t2 => createUser s user t1 t2
  | .updateUser id updatedUser t => updateUser s id updatedUser t
  | .createRole role t => createRole s role t
  | .createProfile profile t => createProfile s profile t
  | .updateProfile id updatedProfile t => updateProfile s id updatedProfile t
  | .createTeam team t1 t2 => createTeam s team t1 t2
  | .addTeamMember member t1 t2 => addTeamMember s member t1 t2
  | .createAuditLog log t => createAuditLog s log t
  | .createPasswordReset reset t => createPasswordReset s reset t
  | .markPasswordResetAsUsed token => markPasswordResetAsUsed s token
  | .createSession session t1 t2 => createSession s session t1 t2
  | .deleteSession token => deleteSession s token
  | .createPreferences prefs t => createPreferences s prefs t
  | .updatePreferences userID updatedPrefs t => updatePreferences s userID updatedPrefs t
  | .createActivityLog log t => createActivityLog s log t
  | .createInvitation invitation t => createInvitation s invitation t
  | .updateInvitationStatus token status t => updateInvitationStatus s token status t
  | .grantUserPermission userPerm t => grantUserPermission s userPerm t
  | .revokeUserPermission userID permissionID => revokeUserPermission s userID permissionID

/-! ## Operations that depend on the run time (`repository.go`, `handlers.go`) -/

/-- The `for _, profile := range profiles` loop of `getProfileByUserID`, over
the keys in the order in which `range` visits them. -/
def getProfileByUserIDLoop (profiles : String → Option UserProfile) (userID : String) :
    List String → Except String UserProfile
  | [] => .error "profile not found"
  | key :: rest =>
    match profiles key with
    | some profile =>
      if profile.UserID = userID then .ok profile
      else getProfileByUserIDLoop profiles userID rest
    | none => getProfileByUserIDLoop profiles userID rest

/-- Go leaves the iteration order of a map unspecified: `order` is the order
in which this call visits the keys of `profiles`. -/
def getProfileByUserID (s : Store) (order : List String) (userID : String) :
    Except String UserProfile :=
  getProfileByUserIDLoop s.profiles userID order

/-- What Go guarantees of a `range` over a map: every key is visited exactly
once. -/
def IsIterationOrder {V : Type} (m : String → Option V) (order : List String) : Prop :=
  order.Nodup ∧ ∀ key, key ∈ order ↔ (m key).isSome = true

/-- The value of `start` at the slice expression of `getAuditLogs`. -/
def getAuditLogsStart (s : Store) (limit : Int) : Int :=
  let len : Int := s.auditLogs.length
  let limit := if limit > len then len else limit
  let start := wrapInt64 (len - limit)
  if start < 0 then 0 else start

/-- In `getAuditLogsHandler`, `parsed` is the result of `strconv.Atoi` on the
`limit` query parameter (default `"50"`).  The result is the status with the
logs written, or `none` when `getAuditLogs` panics. -/
def getAuditLogsHandler (s : Store) (parsed : Except String Int) : Option (Nat × List AuditLog) :=
  let limit := match parsed with
    | .ok limit => limit
    | .error _ => 50
  match getAuditLogs s limit with
  | some logs => some (200, logs)
  | none => none

/-! ## Reference definitions that follow the words of the specification -/

/-- The lowercase hexadecimal digit of a value below 16: `0`-`9`, then `a`-`f`. -/
def lowercaseHexDigit (n : Nat) : Char :=
  if n < 10 then Char.ofNat (48 + n) else Char.ofNat (87 + n)

/-- The lowercase hexadecimal encoding of bytes in order, two digits per byte,
most significant digit first. -/
def lowercaseHexSpec : List (Fin 256) → List Char
  | [] => []
  | b :: rest => lowercaseHexDigit (b.val / 16) :: lowercaseHexDigit (b.val % 16) :: lowercaseHexSpec rest

/-- A character in `0`-`9` or `a`-`f`. -/
def IsLowercaseHexChar (c : Char) : Prop :=
  ('0' ≤ c ∧ c ≤ '9') ∨ ('a' ≤ c ∧ c ≤ 'f')

/-- The operation with the fields created_at, updated_at, granted_at and
joined_at of its input entity set to the zero time: two calls differ only in
these fields exactly when this gives the same call for both. -/
def eraseTimestamps : StoreOp → StoreOp
  | .createUser user t1 t2 => .createUser { user with CreatedAt := 0, UpdatedAt := 0 } t1 t2
  | .updateUser id updatedUser t =>
    .updateUser id { updatedUser with CreatedAt := 0, UpdatedAt := 0 } t
  | .createRole role t => .createRole { role with CreatedAt := 0 } t
  | .createProfile profile t => .createProfile { profile with UpdatedAt := 0 } t
  | .updateProfile id updatedProfile t => .updateProfile id { updatedProfile with UpdatedAt := 0 } t
  | .createTeam team t1 t2 => .createTeam { team with CreatedAt := 0, UpdatedAt := 0 } t1 t2
  | .addTeamMember member t1 t2 => .addTeamMember { member with JoinedAt := 0 } t1 t2
  | .createAuditLog log t => .createAuditLog { log with CreatedAt := 0 } t
  | .createPasswordReset reset t => .createPasswordReset { reset with CreatedAt := 0 } t
  | .markPasswordResetAsUsed token => .markPasswordResetAsUsed token
  | .createSession session t1 t2 => .createSession { session with CreatedAt := 0 } t1 t2
  | .deleteSession token => .deleteSession token
  | .createPreferences prefs t => .createPreferences { prefs with UpdatedAt := 0 } t
  | .updatePreferences userID updatedPrefs t =>
    .updatePreferences userID { updatedPrefs with UpdatedAt := 0 } t
  | .createActivityLog log t => .createActivityLog { log with CreatedAt := 0 } t
  | .createInvitation invitation t => .createInvitation { invitation with CreatedAt := 0 } t
  | .updateInvitationStatus token status t => .updateInvitationStatus token status t
  | .grantUserPermission userPerm t => .grantUserPermission { userPerm with GrantedAt := 0 } t
  | .revokeUserPermission userID permissionID => .revokeUserPermission userID permissionID

/-! ## Invariant and sample data used by the theorems -/

/-- What holds of a store reached by at most `n` calls with fresh creations:
every team is stored under its own ID with a counter equal to its member
list, and no member list is longer than `n`. -/
def TeamCountInv (s : Store) (n : Nat) : Prop :=
  (∀ id team, s.teams id = some team →
      team.ID = id ∧ team.MemberCount = ((getTeamMembers s id).length : Int)) ∧
  (∀ id, (s.teamMembers id).length ≤ n)

/-- Sample data: a member of the team `team-1`. -/
def sampleMember : TeamMember :=
  { ID := "member-1", TeamID := "team-1", UserID := "user-1", Role := "member", JoinedAt := 0 }

/-- Sample data: the team `team-1` as `createTeamHandler` builds it. -/
def sampleTeam : Team :=
  { ID := "team-1", Name := "core", Description := "", OwnerID := "user-1", MemberCount := 0,
    CreatedAt := 0, UpdatedAt := 0 }

/-- Sample data: the user `user-1`. -/
def sampleUser : User :=
  { ID := "user-1", Email := "ada@example.org", Username := "ada", Password := "secret",
    FirstName := "Ada", LastName := "Byron", RoleID := "role-2", TeamID := "", IsActive := true,
    CreatedAt := 0, UpdatedAt := 0 }

/-- Sample data: an audit entry with the given ID. -/
def sampleAudit (id : String) : AuditLog :=
  { ID := id, UserID := "user-1", Action := "user.created", ResourceID := "user-1",
    ResourceType := "user", IPAddress := "127.0.0.1", UserAgent := "", Status := "success",
    Details := [], CreatedAt := 0 }

/-- Sample data: a store whose audit log holds the entries a, b, c in this order. -/
def sampleAuditStore : Store :=
  { emptyStore with auditLogs := [sampleAudit "a", sampleAudit "b", sampleAudit "c"] }

/-- Sample data: an activity entry of the given user. -/
def sampleActivity (id userID : String) : ActivityLog :=
  { ID := id, UserID := userID, ActivityType := "login", Description := "User logged in",
    Metadata := [], IPAddress := "127.0.0.1", CreatedAt := 0 }

/-- Sample data: an activity log with three entries of user `u` and one of `v`. -/
def sampleActivityStore : Store :=
  { emptyStore with
    activityLogs := [sampleActivity "1" "u", sampleActivity "2" "v", sampleActivity "3" "u",
      sampleActivity "4" "u"] }

/-- Sample data: a grant of the given permission to `user-1`. -/
def sampleGrant (id permissionID : String) : UserPermission :=
  { ID := id, UserID := "user-1", PermissionID := permissionID, GrantedBy := "user-0",
    GrantedAt := 0 }

/-- Sample data: `user-1` holds perm-1, perm-2, perm-1 (granted in this order). -/
def sampleGrantStore : Store :=
  { emptyStore with
    userPermissions := sliceMapSet emptyStore.userPermissions "user-1"
      [sampleGrant "g1" "perm-1", sampleGrant "g2" "perm-2", sampleGrant "g3" "perm-1"] }

/-- Sample data: an unused reset token that expires at instant 100. -/
def sampleReset : PasswordReset :=
  { ID := "pwreset-1", UserID := "", Token := "reset-1", ExpiresAt := 100, Used := false,
    CreatedAt := 0 }

/-- Sample data: a store that holds `sampleReset`, created at instant 10. -/
def sampleResetStore : Store := (createPasswordReset emptyStore sampleReset 10).2

/-- Sample data: eight bytes from the random source. -/
def sampleBytes : RandomBytes := ⟨[0, 1, 15, 16, 255, 171, 9, 128], rfl⟩

/-- Sample data: a store in which the token `reset-1` has been consumed. -/
def sampleUsedResetStore : Store := (markPasswordResetAsUsed sampleResetStore "reset-1").2

/-- Sample data: a pending invitation that expires at instant 100. -/
def sampleInvitation : Invitation :=
  { ID := "invitation-1", Email := "bob@example.org", TeamID := "", RoleID := "role-2",
    InvitedBy := "user-1", Token := "invite-1", Status := "pending", ExpiresAt := 100,
    AcceptedAt := none, CreatedAt := 0 }

/-- Sample data: a store that holds `sampleInvitation`, created at instant 10. -/
def sampleInvitationStore : Store := (createInvitation emptyStore sampleInvitation 10).2

/-- Sample data: a store in which the invitation `invite-1` has been accepted
at instant 20. -/
def sampleAcceptedStore : Store :=
  (acceptInvitationHandler sampleInvitationStore "invite-1" 20 20).2

/-- Sample data: a profile of `user-1` with the given ID. -/
def sampleProfile (id : String) : UserProfile :=
  { ID := id, UserID := "user-1", Avatar := "", Bio := "", PhoneNumber := "", Location := "",
    Company := "", Website := "", UpdatedAt := 0 }

/-- Sample data: a store that holds the profile `profile-1` of `user-1`. -/
def sampleProfileStore : Store := (createProfile emptyStore (sampleProfile "profile-1") 10).2

/-- Sample data: the preferences of `user-1`. -/
def samplePreferences : UserPreferences :=
  { ID := "pref-1", UserID := "user-1", Theme := "dark", Language := "en", Timezone := "UTC",
    Notifications := [], Settings := [], UpdatedAt := 0 }

/-- Sample data: a session of `user-1` under the given token. -/
def sampleSession (token : String) : Session :=
  { ID := "sess-1", UserID := "user-1", Token := token, IPAddress := "127.0.0.1", UserAgent := "",
    ExpiresAt := 1000, LastActivity := 0, CreatedAt := 0 }

/-- Sample data: a store with the sessions `session-1` and `session-2`. -/
def sampleSessionStore : Store :=
  (createSession (createSession emptyStore (sampleSession "session-1") 10 11).2
    (sampleSession "session-2") 12 13).2

/-- Sample data: a store that holds `sampleUser`, created at instant 1. -/
def sampleUserStore : Store := (createUser emptyStore sampleUser 1 2).2

/-! ## Team member counter -/

theorem wrapInt64_of_range (x : Int) (h1 : -(2 ^ 63) ≤ x) (h2 : x < 2 ^ 63) : wrapInt64 x = x := by
  unfold wrapInt64
  rw [Int.emod_eq_of_lt (by omega) (by omega)]
  omega

theorem teamCountInv_empty : TeamCountInv emptyStore 0 := by
  refine ⟨?_, ?_⟩
  · intro id team h
    simp [emptyStore] at h
  · intro id
    simp [emptyStore]

theorem teamCountInv_createTeam (s : Store) (n : Nat) (team : Team) (t1 t2 : Time)
    (h : TeamCountInv s n) (h0 : team.MemberCount = 0) (hm : s.teamMembers team.ID = []) :
    TeamCountInv (createTeam s team t1 t2).2 (n + 1) := by
  obtain ⟨hteams, hlen⟩ := h
  refine ⟨?_, ?_⟩
  · intro id tm hget
    simp only [createTeam, mapInsert] at hget
    by_cases hid : id = team.ID
    · subst hid
      simp at hget
      subst hget
      simp [getTeamMembers, createTeam, hm, h0]
    · simp [hid] at hget
      have := hteams id tm hget
      simpa [getTeamMembers, createTeam] using this
  · intro id
    have := hlen id
    simp only [createTeam]
    omega

theorem teamCountInv_addTeamMember (s : Store) (n : Nat) (member : TeamMember) (t1 t2 : Time)
    (h : TeamCountInv s n) (hn : (n : Int) + 1 < 2 ^ 63) :
    TeamCountInv (addTeamMember s member t1 t2).2 (n + 1) := by
  obtain ⟨hteams, hlen⟩ := h
  have hlenT := hlen member.TeamID
  cases hT : s.teams member.TeamID with
  | none =>
    refine ⟨?_, ?_⟩
    · intro id tm hget
      simp only [addTeamMember, hT] at hget
      have hne : id ≠ member.TeamID := by
        intro heq
        rw [heq, hT] at hget
        exact Option.noConfusion hget
      have := hteams id tm hget
      simpa [addTeamMember, hT, getTeamMembers, sliceMapSet, hne] using this
    · intro id
      have := hlen id
      simp only [addTeamMember, hT, sliceMapSet]
      split
      · rename_i heq
        subst heq
        simp
        omega
      · omega
  | some team =>
    obtain ⟨hid, hcount⟩ := hteams member.TeamID team hT
    simp only [getTeamMembers] at hcount
    have hwrap : wrapInt64 (team.MemberCount + 1) = team.MemberCount + 1 := by
      apply wrapInt64_of_range <;> omega
    rw [hcount] at hwrap
    refine ⟨?_, ?_⟩
    · intro id tm hget
      simp only [addTeamMember, hT, mapInsert] at hget
      by_cases hne : id = member.TeamID
      · subst hne
        simp at hget
        subst hget
        simp [addTeamMember, hT, getTeamMembers, sliceMapSet, hwrap, hid, hcount]
      · simp [hne] at hget
        have := hteams id tm hget
        simpa [addTeamMember, hT, getTeamMembers, sliceMapSet, hne] using this
    · intro id
      have := hlen id
      simp only [addTeamMember, hT, sliceMapSet]
      split
      · rename_i heq
        subst heq
        simp
        omega
      · omega

theorem teamCountInv_run (calls : List TeamCall) :
    ∀ (s : Store) (n : Nat), TeamCountInv s n → createsAreFresh s calls = true →
      ((n : Int) + calls.length < 2 ^ 63) → TeamCountInv (runTeamCalls s calls) (n + calls.length) := by
  induction calls with
  | nil => intro s n h _ _; simpa [runTeamCalls] using h
  | cons call rest ih =>
    intro s n h hfresh hbound
    simp only [List.length_cons, Nat.cast_add, Nat.cast_one] at hbound
    cases call with
    | createTeam team t1 t2 =>
      simp only [createsAreFresh, Bool.and_eq_true, decide_eq_true_eq, List.isEmpty_iff] at hfresh
      obtain ⟨⟨h0, hm⟩, hrest⟩ := hfresh
      have := ih _ (n + 1) (teamCountInv_createTeam s n team t1 t2 h h0 hm) hrest
        (by push_cast; omega)
      simpa [runTeamCalls, runTeamCall, Nat.add_assoc, Nat.add_comm 1] using this
    | addTeamMember member t1 t2 =>
      simp only [createsAreFresh] at hfresh
      have := ih _ (n + 1) (teamCountInv_addTeamMember s n member t1 t2 h (by omega)) hfresh
        (by push_cast; omega)
      simpa [runTeamCalls, runTeamCall, Nat.add_assoc, Nat.add_comm 1] using this

/-- C1, as stated, fails: adding a member to the ID `team-1` and then creating
the team `team-1` (with `member_count` 0, as the handler supplies it) stores a
team whose counter is 0 while `getTeamMembers` returns one member. -/
theorem C1_counter_mismatch :
    ¬ ∀ (calls : List TeamCall) (id : String) (team : Team),
      (runTeamCalls emptyStore calls).teams id = some team →
        team.MemberCount = ((getTeamMembers (runTeamCalls emptyStore calls) team.ID).length : Int) := by
  intro h
  have h1 := h [.addTeamMember sampleMember 1 2, .createTeam sampleTeam 3 4] "team-1"
    { sampleTeam with CreatedAt := 3, UpdatedAt := 4 } (by decide)
  revert h1
  decide

/-- C1, amended: in every store reached from the empty store by a sequence of
createTeam and addTeamMember calls (fewer than 2^63 of them) in which every
createTeam supplies member_count 0 for an ID that has no member stored yet,
each stored team's member_count equals the length of the sequence that
getTeamMembers returns for the team's ID. -/
theorem C1_member_count_eq_length (calls : List TeamCall) (id : String) (team : Team)
    (hfresh : createsAreFresh emptyStore calls = true)
    (hbound : (calls.length : Int) < 2 ^ 63)
    (hteam : (runTeamCalls emptyStore calls).teams id = some team) :
    team.MemberCount = ((getTeamMembers (runTeamCalls emptyStore calls) team.ID).length : Int) := by
  have hinv := teamCountInv_run calls emptyStore 0 teamCountInv_empty hfresh (by simpa using hbound)
  obtain ⟨hid, hcount⟩ := hinv.1 id team hteam
  rw [hid]
  exact hcount

theorem C1_member_count_eq_length_witness :
    ({ sampleTeam with CreatedAt := 3, UpdatedAt := 6, MemberCount := 1 } : Team).MemberCount =
      ((getTeamMembers
        (runTeamCalls emptyStore [.createTeam sampleTeam 3 4, .addTeamMember sampleMember 5 6])
        "team-1").length : Int) :=
  C1_member_count_eq_length [.createTeam sampleTeam 3 4, .addTeamMember sampleMember 5 6] "team-1"
    { sampleTeam with CreatedAt := 3, UpdatedAt := 6, MemberCount := 1 }
    (by decide) (by decide) (by decide)

/-! ## Duplicate users -/

/-- C2: when the ID of the user is already a key of the users collection,
createUser returns the error "user already exists" and the store after the
call is the store before it (the stored user and its timestamps included);
when the ID is not yet a key, createUser returns no error and stores the
user under its ID. -/
theorem C2_createUser_duplicate (s : Store) (user : User) (t1 t2 : Time) :
    ((s.users user.ID).isSome = true →
      createUser s user t1 t2 = (some "user already exists", s)) ∧
    (s.users user.ID = none →
      (createUser s user t1 t2).1 = none ∧
      (createUser s user t1 t2).2.users user.ID =
        some { user with CreatedAt := t1, UpdatedAt := t2 }) := by
  refine ⟨?_, ?_⟩
  · intro h
    simp [createUser, h]
  · intro h
    simp [createUser, h, mapInsert]

theorem C2_createUser_duplicate_witness :
    createUser (createUser emptyStore sampleUser 1 2).2 { sampleUser with Email := "eve@example.org" } 3 4
        = (some "user already exists", (createUser emptyStore sampleUser 1 2).2) ∧
    ((createUser emptyStore sampleUser 1 2).1 = none ∧
      (createUser emptyStore sampleUser 1 2).2.users "user-1" =
        some { sampleUser with CreatedAt := 1, UpdatedAt := 2 }) :=
  ⟨(C2_createUser_duplicate (createUser emptyStore sampleUser 1 2).2
      { sampleUser with Email := "eve@example.org" } 3 4).1 (by decide),
   (C2_createUser_duplicate emptyStore sampleUser 1 2).2 (by decide)⟩

/-! ## Create followed by get -/

/-- C3: for each key-addressed entity kind (user, role, team, session,
password reset, invitation, preferences), when create succeeds the get for
the key of the entity, called on the store after the create, succeeds and
returns the entity as supplied except for its server-assigned timestamp
fields, each of which holds the clock reading taken for it.  Only createUser
can fail; the other six create operations return no error. -/
theorem C3_get_after_create (s : Store) (t1 t2 : Time) :
    (∀ user : User, (createUser s user t1 t2).1 = none →
      getUser (createUser s user t1 t2).2 user.ID
        = .ok { user with CreatedAt := t1, UpdatedAt := t2 }) ∧
    (∀ role : Role, (createRole s role t1).1 = none ∧
      getRole (createRole s role t1).2 role.ID = .ok { role with CreatedAt := t1 }) ∧
    (∀ team : Team, (createTeam s team t1 t2).1 = none ∧
      getTeam (createTeam s team t1 t2).2 team.ID
        = .ok { team with CreatedAt := t1, UpdatedAt := t2 }) ∧
    (∀ session : Session, (createSession s session t1 t2).1 = none ∧
      getSessionByToken (createSession s session t1 t2).2 session.Token
        = .ok { session with CreatedAt := t1, LastActivity := t2 }) ∧
    (∀ reset : PasswordReset, (createPasswordReset s reset t1).1 = none ∧
      getPasswordResetByToken (createPasswordReset s reset t1).2 reset.Token
        = .ok { reset with CreatedAt := t1 }) ∧
    (∀ invitation : Invitation, (createInvitation s invitation t1).1 = none ∧
      getInvitationByToken (createInvitation s invitation t1).2 invitation.Token
        = .ok { invitation with CreatedAt := t1 }) ∧
    (∀ prefs : UserPreferences, (createPreferences s prefs t1).1 = none ∧
      getPreferencesByUserID (createPreferences s prefs t1).2 prefs.UserID
        = .ok { prefs with UpdatedAt := t1 }) := by
  refine ⟨?_, ?_, ?_, ?_, ?_, ?_, ?_⟩
  · intro user h
    by_cases hex : (s.users user.ID).isSome = true
    · simp [createUser, hex] at h
    · simp [createUser, hex, getUser, mapInsert]
  · intro role
    simp [createRole, getRole, mapInsert]
  · intro team
    simp [createTeam, getTeam, mapInsert]
  · intro session
    simp [createSession, getSessionByToken, mapInsert]
  · intro reset
    simp [createPasswordReset, getPasswordResetByToken, mapInsert]
  · intro invitation
    simp [createInvitation, getInvitationByToken, mapInsert]
  · intro prefs
    simp [createPreferences, getPreferencesByUserID, mapInsert]

theorem C3_get_after_create_witness :
    getUser (createUser emptyStore sampleUser 7 8).2 "user-1"
      = .ok { sampleUser with CreatedAt := 7, UpdatedAt := 8 } :=
  (C3_get_after_create emptyStore 7 8).1 sampleUser (by decide)

/-! ## Log retrieval -/

theorem getAuditLogs_eq_drop (s : Store) (limit : Int) (h0 : 0 ≤ limit)
    (hlen : (s.auditLogs.length : Int) < 2 ^ 63) :
    getAuditLogs s limit
      = some (s.auditLogs.drop (s.auditLogs.length - min limit.toNat s.auditLogs.length)) := by
  unfold getAuditLogs
  simp only []
  by_cases hgt : limit > (s.auditLogs.length : Int)
  · have hmin : min limit.toNat s.auditLogs.length = s.auditLogs.length := by omega
    rw [if_pos hgt, hmin, Int.sub_self, wrapInt64_of_range 0 (by omega) (by omega)]
    simp
  · have hmin : min limit.toNat s.auditLogs.length = limit.toNat := by omega
    have hw : wrapInt64 ((s.auditLogs.length : Int) - limit) = (s.auditLogs.length : Int) - limit :=
      wrapInt64_of_range _ (by omega) (by omega)
    have hnn : ¬ ((s.auditLogs.length : Int) - limit < 0) := by omega
    rw [if_neg hgt, hmin, hw, if_neg hnn, if_pos (by omega)]
    congr 2
    omega

/-- C4: for an audit log of N entries (N below 2^63, as for every Go slice)
and a limit with 0 ≤ limit, getAuditLogs returns, without failing, the last
min(limit, N) entries in insertion order: the result is the log with its
first N - min(limit, N) entries dropped and has min(limit, N) entries.  When
N > limit it has exactly limit entries and its first entry, if any, is the
entry at position N - limit + 1 of the log.  createAuditLog puts the new
entry at the end of the log, so the order of the log is insertion order. -/
theorem C4_getAuditLogs_window (s : Store) (limit : Int) (h0 : 0 ≤ limit)
    (hlen : (s.auditLogs.length : Int) < 2 ^ 63) :
    ∃ window : List AuditLog,
      getAuditLogs s limit = some window ∧
      window = s.auditLogs.drop (s.auditLogs.length - min limit.toNat s.auditLogs.length) ∧
      s.auditLogs.take (s.auditLogs.length - min limit.toNat s.auditLogs.length) ++ window
        = s.auditLogs ∧
      window.length = min limit.toNat s.auditLogs.length ∧
      (limit < (s.auditLogs.length : Int) →
        (window.length : Int) = limit ∧
        window.head? = s.auditLogs.get? (s.auditLogs.length - limit.toNat) ∧
        (0 < limit → window.head?.isSome = true)) ∧
      (∀ (log : AuditLog) (t : Time),
        (createAuditLog s log t).2.auditLogs = s.auditLogs ++ [{ log with CreatedAt := t }]) := by
  refine ⟨_, getAuditLogs_eq_drop s limit h0 hlen, rfl, ?_, ?_, ?_, ?_⟩
  · exact List.take_append_drop _ _
  · rw [List.length_drop]
    omega
  · intro hlt
    have hmin : min limit.toNat s.auditLogs.length = limit.toNat := by omega
    rw [hmin]
    refine ⟨?_, ?_, ?_⟩
    · rw [List.length_drop]
      omega
    · simp
    · intro hpos
      rw [List.head?_drop, Option.isSome_iff_exists]
      have hidx : s.auditLogs.length - limit.toNat < s.auditLogs.length := by omega
      exact ⟨s.auditLogs[s.auditLogs.length - limit.toNat], List.getElem?_eq_getElem hidx⟩
  · intro log t
    rfl

theorem C4_getAuditLogs_window_witness :
    ∃ window : List AuditLog,
      getAuditLogs sampleAuditStore 2 = some window ∧
      window = sampleAuditStore.auditLogs.drop
        (sampleAuditStore.auditLogs.length - min (2 : Int).toNat sampleAuditStore.auditLogs.length) ∧
      sampleAuditStore.auditLogs.take
          (sampleAuditStore.auditLogs.length - min (2 : Int).toNat sampleAuditStore.auditLogs.length)
        ++ window = sampleAuditStore.auditLogs ∧
      window.length = min (2 : Int).toNat sampleAuditStore.auditLogs.length ∧
      ((2 : Int) < (sampleAuditStore.auditLogs.length : Int) →
        (window.length : Int) = 2 ∧
        window.head? = sampleAuditStore.auditLogs.get? (sampleAuditStore.auditLogs.length - (2 : Int).toNat) ∧
        ((0 : Int) < 2 → window.head?.isSome = true)) ∧
      (∀ (log : AuditLog) (t : Time),
        (createAuditLog sampleAuditStore log t).2.auditLogs
          = sampleAuditStore.auditLogs ++ [{ log with CreatedAt := t }]) :=
  C4_getAuditLogs_window sampleAuditStore 2 (by decide) (by decide)

theorem getUserActivityLogs_sample :
    (getUserActivityLogs sampleActivityStore "u" 2).map (fun log => log.ID) = ["4", "3"] ∧
    getUserActivityLogs sampleActivityStore "u" (-1) = [] := by
  decide

theorem getUserActivityLogsLoop_eq (logs : List ActivityLog) (userID : String) (limit : Int) :
    ∀ (k : Nat) (userLogs : List ActivityLog), k ≤ logs.length →
      getUserActivityLogsLoop logs userID limit k userLogs
        = userLogs ++
            (((logs.take k).reverse.filter (fun log => decide (log.UserID = userID))).take
              (limit.toNat - userLogs.length)) := by
  intro k
  induction k with
  | zero =>
    intro userLogs _
    simp [getUserActivityLogsLoop]
  | succ i ih =>
    intro userLogs hk
    have hi : i < logs.length := by omega
    have hget : logs.get? i = some logs[i] := by
      rw [List.get?_eq_getElem?]
      exact List.getElem?_eq_getElem hi
    have htake : (logs.take (i + 1)).reverse = logs[i] :: (logs.take i).reverse := by
      rw [List.take_succ, List.getElem?_eq_getElem hi]
      simp
    rw [getUserActivityLogsLoop, htake]
    by_cases hlim : (userLogs.length : Int) < limit
    · rw [if_pos hlim]
      simp only [hget]
      obtain ⟨m, hm⟩ : ∃ m, limit.toNat - userLogs.length = m + 1 :=
        ⟨limit.toNat - userLogs.length - 1, by omega⟩
      by_cases hu : logs[i].UserID = userID
      · rw [if_pos hu, ih _ (by omega), List.filter_cons_of_pos (by simpa using hu), hm]
        have hm2 : limit.toNat - (userLogs ++ [logs[i]]).length = m := by
          rw [List.length_append, List.length_singleton]
          omega
        rw [hm2]
        simp
      · rw [if_neg hu, ih _ (by omega), List.filter_cons_of_neg (by simpa using hu)]
    · rw [if_neg hlim]
      have hz : limit.toNat - userLogs.length = 0 := by omega
      rw [hz]
      simp

/-- C5: for every activity log, user ID and integer limit,
getUserActivityLogs returns exactly the first max(limit, 0) elements of the
reversed log filtered to the entries of that user.  Hence every returned
entry belongs to the user, the result is an initial segment of the
newest-first list of the user's entries (newest-first order, no newer
matching entry skipped), and it has min(max(limit, 0), number of matching
entries) elements, so at most max(limit, 0) and, for a limit that is not
negative, at most limit. -/
theorem C5_getUserActivityLogs_newest_first (s : Store) (userID : String) (limit : Int) :
    getUserActivityLogs s userID limit
      = ((s.activityLogs.reverse.filter (fun log => decide (log.UserID = userID))).take
          (max limit 0).toNat) ∧
    (∀ log ∈ getUserActivityLogs s userID limit, log.UserID = userID) ∧
    getUserActivityLogs s userID limit
      <+: s.activityLogs.reverse.filter (fun log => decide (log.UserID = userID)) ∧
    (getUserActivityLogs s userID limit).length
      = min (max limit 0).toNat
          (s.activityLogs.reverse.filter (fun log => decide (log.UserID = userID))).length ∧
    ((getUserActivityLogs s userID limit).length : Int) ≤ max limit 0 := by
  have hmax : (max limit 0).toNat = limit.toNat := by omega
  have heq : getUserActivityLogs s userID limit
      = ((s.activityLogs.reverse.filter (fun log => decide (log.UserID = userID))).take
          (max limit 0).toNat) := by
    unfold getUserActivityLogs
    rw [getUserActivityLogsLoop_eq _ _ _ _ _ (Nat.le_refl _), hmax]
    simp
  refine ⟨heq, ?_, ?_, ?_, ?_⟩
  · intro log hlog
    rw [heq] at hlog
    have hmem := List.mem_of_mem_take hlog
    simpa using (List.mem_filter.mp hmem).2
  · rw [heq]
    exact List.take_prefix _ _
  · rw [heq, List.length_take]
  · rw [heq, List.length_take]
    omega

/-! ## Revoking a permission -/

theorem revokeUserPermissionLoop_none (permissionID : String) :
    ∀ (perms : List UserPermission) (i : Nat),
      (∀ perm ∈ perms, perm.PermissionID ≠ permissionID) →
        revokeUserPermissionLoop permissionID perms i = none := by
  intro perms
  induction perms with
  | nil => intro i _; rfl
  | cons perm rest ih =>
    intro i h
    have hne : perm.PermissionID ≠ permissionID := h perm (List.mem_cons_self _ _)
    rw [revokeUserPermissionLoop, if_neg hne]
    exact ih (i + 1) (fun q hq => h q (List.mem_cons_of_mem _ hq))

theorem revokeUserPermissionLoop_some (permissionID : String) :
    ∀ (perms : List UserPermission) (i : Nat),
      (∃ perm ∈ perms, perm.PermissionID = permissionID) →
        ∃ (before : List UserPermission) (hit : UserPermission) (after : List UserPermission),
          perms = before ++ hit :: after ∧
          (∀ perm ∈ before, perm.PermissionID ≠ permissionID) ∧
          hit.PermissionID = permissionID ∧
          revokeUserPermissionLoop permissionID perms i = some (i + before.length) := by
  intro perms
  induction perms with
  | nil =>
    intro i h
    obtain ⟨perm, hmem, _⟩ := h
    exact absurd hmem (List.not_mem_nil _)
  | cons perm rest ih =>
    intro i h
    by_cases hp : perm.PermissionID = permissionID
    · refine ⟨[], perm, rest, rfl, ?_, hp, ?_⟩
      · intro q hq
        exact absurd hq (List.not_mem_nil _)
      · rw [revokeUserPermissionLoop, if_pos hp]
        rfl
    · have hrest : ∃ q ∈ rest, q.PermissionID = permissionID := by
        obtain ⟨q, hq, hqid⟩ := h
        rcases List.mem_cons.mp hq with heq | hmem
        · rw [heq] at hqid
          exact absurd hqid hp
        · exact ⟨q, hmem, hqid⟩
      obtain ⟨before, hit, after, hsplit, hbefore, hhit, hloop⟩ := ih (i + 1) hrest
      refine ⟨perm :: before, hit, after, ?_, ?_, hhit, ?_⟩
      · rw [hsplit]
        rfl
      · intro q hq
        rcases List.mem_cons.mp hq with heq | hmem
        · rw [heq]
          exact hp
        · exact hbefore q hmem
      · rw [revokeUserPermissionLoop, if_neg hp, hloop, List.length_cons]
        congr 1
        omega

/-- C6: if no grant of the user has the permission ID, revokeUserPermission
returns the error "permission not found for user" and the store after the
call is the store before it.  Otherwise it returns no error and the grant
sequence of the user splits as before ++ hit :: after, where hit has the
permission ID and no entry of before has it, and the new sequence is
before ++ after: the first matching entry is removed and all other entries
keep their order.  The grant sequences of all other users, and all other
collections, are unchanged. -/
theorem C6_revokeUserPermission (s : Store) (userID permissionID : String) :
    ((∀ perm ∈ getUserPermissions s userID, perm.PermissionID ≠ permissionID) →
      revokeUserPermission s userID permissionID = (some "permission not found for user", s)) ∧
    ((∃ perm ∈ getUserPermissions s userID, perm.PermissionID = permissionID) →
      (revokeUserPermission s userID permissionID).1 = none ∧
      (∃ (before : List UserPermission) (hit : UserPermission) (after : List UserPermission),
        getUserPermissions s userID = before ++ hit :: after ∧
        (∀ perm ∈ before, perm.PermissionID ≠ permissionID) ∧
        hit.PermissionID = permissionID ∧
        getUserPermissions (revokeUserPermission s userID permissionID).2 userID
          = before ++ after) ∧
      (∀ other : String, other ≠ userID →
        getUserPermissions (revokeUserPermission s userID permissionID).2 other
          = getUserPermissions s other) ∧
      (revokeUserPermission s userID permissionID).2
        = { s with userPermissions := (revokeUserPermission s userID permissionID).2.userPermissions }) := by
  refine ⟨?_, ?_⟩
  · intro h
    simp only [getUserPermissions] at h
    simp [revokeUserPermission, revokeUserPermissionLoop_none permissionID _ 0 h]
  · intro h
    simp only [getUserPermissions] at h
    obtain ⟨before, hit, after, hsplit, hbefore, hhit, hloop⟩ :=
      revokeUserPermissionLoop_some permissionID _ 0 h
    rw [Nat.zero_add] at hloop
    refine ⟨?_, ⟨before, hit, after, hsplit, hbefore, hhit, ?_⟩, ?_, ?_⟩
    · simp [revokeUserPermission, hloop]
    · simp only [revokeUserPermission, hloop, getUserPermissions, sliceMapSet, if_true]
      rw [hsplit]
      simp
    · intro other hne
      simp [revokeUserPermission, hloop, getUserPermissions, sliceMapSet, hne]
    · simp [revokeUserPermission, hloop]

theorem C6_revokeUserPermission_witness :
    revokeUserPermission sampleGrantStore "user-1" "perm-9"
        = (some "permission not found for user", sampleGrantStore) ∧
    ((revokeUserPermission sampleGrantStore "user-1" "perm-1").1 = none ∧
      getUserPermissions (revokeUserPermission sampleGrantStore "user-1" "perm-1").2 "user-2"
        = getUserPermissions sampleGrantStore "user-2") :=
  ⟨(C6_revokeUserPermission sampleGrantStore "user-1" "perm-9").1 (by decide),
   ((C6_revokeUserPermission sampleGrantStore "user-1" "perm-1").2
      ⟨sampleGrant "g1" "perm-1", by decide, rfl⟩).1,
   ((C6_revokeUserPermission sampleGrantStore "user-1" "perm-1").2
      ⟨sampleGrant "g1" "perm-1", by decide, rfl⟩).2.2.1 "user-2" (by decide)⟩

/-! ## Password reset -/

/-- C7: for the consumption step resetPasswordHandler with the clock as an
input: (1) a token that is not a key of the password-reset collection gets
the 404 response "Invalid reset token" and the store is unchanged; (2) an
unused token whose expires_at is before the clock gets the 400 response
"Token expired" and the store is unchanged, so used stays false; (3) an
unused token that is not expired gets the 200 response, the stored record
becomes the same record with used = true, and any further consumption of the
same token on the resulting store, at any clock, gets the 400 response
"Token already used" and changes nothing. -/
theorem C7_resetPasswordHandler (s : Store) (request : ResetPasswordRequest) (clientIP : String)
    (now : Time) (idBytes : RandomBytes) (tLog : Time) :
    (s.passwordResets request.Token = none →
      resetPasswordHandler s (some request) clientIP now idBytes tLog
        = ({ status := 404, body := [("error", "Invalid reset token")] }, s)) ∧
    (∀ reset : PasswordReset, s.passwordResets request.Token = some reset →
      reset.Used = false → reset.ExpiresAt < now →
      resetPasswordHandler s (some request) clientIP now idBytes tLog
        = ({ status := 400, body := [("error", "Token expired")] }, s)) ∧
    (∀ reset : PasswordReset, s.passwordResets request.Token = some reset →
      reset.Used = false → ¬ reset.ExpiresAt < now →
      (resetPasswordHandler s (some request) clientIP now idBytes tLog).1
        = { status := 200, body := [("message", "Password reset successful")] } ∧
      (resetPasswordHandler s (some request) clientIP now idBytes tLog).2.passwordResets
          request.Token = some { reset with Used := true } ∧
      (∀ (again : ResetPasswordRequest) (clientIP2 : String) (now2 : Time)
          (idBytes2 : RandomBytes) (tLog2 : Time), again.Token = request.Token →
        resetPasswordHandler (resetPasswordHandler s (some request) clientIP now idBytes tLog).2
            (some again) clientIP2 now2 idBytes2 tLog2
          = ({ status := 400, body := [("error", "Token already used")] },
             (resetPasswordHandler s (some request) clientIP now idBytes tLog).2))) := by
  refine ⟨?_, ?_, ?_⟩
  · intro h
    simp [resetPasswordHandler, getPasswordResetByToken, h]
  · intro reset h hused hexp
    simp [resetPasswordHandler, getPasswordResetByToken, h, hused, hexp]
  · intro reset h hused hexp
    have hstored :
        (resetPasswordHandler s (some request) clientIP now idBytes tLog).2.passwordResets
          request.Token = some { reset with Used := true } := by
      simp [resetPasswordHandler, getPasswordResetByToken, h, hused, hexp,
        markPasswordResetAsUsed, createAuditLog, mapInsert]
    refine ⟨?_, hstored, ?_⟩
    · simp [resetPasswordHandler, getPasswordResetByToken, h, hused, hexp]
    · intro again clientIP2 now2 idBytes2 tLog2 htok
      rw [← htok] at hstored
      generalize (resetPasswordHandler s (some request) clientIP now idBytes tLog).2 = s2
        at hstored ⊢
      simp [resetPasswordHandler, getPasswordResetByToken, hstored]

theorem C7_resetPasswordHandler_witness :
    resetPasswordHandler sampleResetStore (some ⟨"reset-9", "pw"⟩) "127.0.0.1" 50 sampleBytes 51
        = ({ status := 404, body := [("error", "Invalid reset token")] }, sampleResetStore) ∧
    resetPasswordHandler sampleResetStore (some ⟨"reset-1", "pw"⟩) "127.0.0.1" 101 sampleBytes 102
        = ({ status := 400, body := [("error", "Token expired")] }, sampleResetStore) ∧
    (resetPasswordHandler sampleResetStore (some ⟨"reset-1", "pw"⟩) "127.0.0.1" 50 sampleBytes 51).1
        = { status := 200, body := [("message", "Password reset successful")] } :=
  ⟨(C7_resetPasswordHandler sampleResetStore ⟨"reset-9", "pw"⟩ "127.0.0.1" 50 sampleBytes 51).1
      (by decide),
   (C7_resetPasswordHandler sampleResetStore ⟨"reset-1", "pw"⟩ "127.0.0.1" 101 sampleBytes 102).2.1
      { sampleReset with CreatedAt := 10 } (by decide) (by decide) (by decide),
   ((C7_resetPasswordHandler sampleResetStore ⟨"reset-1", "pw"⟩ "127.0.0.1" 50 sampleBytes 51).2.2
      { sampleReset with CreatedAt := 10 } (by decide) (by decide) (by decide)).1⟩

/-- C8, as stated, fails: createPasswordReset does not look at what is stored
under the token, so a call that supplies used = false for the token
`reset-1` replaces a stored record with used = true by one with
used = false. -/
theorem C8_used_reverts :
    ¬ ∀ (s : Store) (op : StoreOp) (token : String) (reset : PasswordReset),
      s.passwordResets token = some reset → reset.Used = true →
        ∃ after : PasswordReset,
          (runStoreOp s op).2.passwordResets token = some after ∧ after.Used = true := by
  intro h
  obtain ⟨after, hstored, hused⟩ :=
    h sampleUsedResetStore (.createPasswordReset sampleReset 20) "reset-1"
      { sampleReset with CreatedAt := 10, Used := true } (by decide) rfl
  have hafter : after = { sampleReset with CreatedAt := 20 } := by
    have h2 : (runStoreOp sampleUsedResetStore (.createPasswordReset sampleReset 20)).2.passwordResets
        "reset-1" = some { sampleReset with CreatedAt := 20 } := by decide
    rw [h2] at hstored
    exact (Option.some.inj hstored).symm
  rw [hafter] at hused
  exact absurd hused (by decide)

/-- C8, amended: for every store state and every store operation other than
a createPasswordReset call that supplies used = false for the same token, if
the password reset stored under a token has used = true before the
operation, then the password reset stored under that token after the
operation has used = true.  A createPasswordReset call for the token stores
the supplied record (with created_at set), whatever was stored before. -/
theorem C8_used_stays_true (s : Store) (op : StoreOp) (token : String) (reset : PasswordReset)
    (hstored : s.passwordResets token = some reset) (hused : reset.Used = true)
    (hop : ∀ (supplied : PasswordReset) (t : Time),
      op = .createPasswordReset supplied t → supplied.Token = token → supplied.Used = true) :
    (∃ after : PasswordReset,
      (runStoreOp s op).2.passwordResets token = some after ∧ after.Used = true) ∧
    (∀ (supplied : PasswordReset) (t : Time),
      (createPasswordReset s supplied t).2.passwordResets supplied.Token
        = some { supplied with CreatedAt := t }) := by
  refine ⟨?_, ?_⟩
  · cases op with
    | createUser user t1 t2 =>
      refine ⟨reset, ?_, hused⟩
      simp only [runStoreOp, createUser]
      split <;> exact hstored
    | updateUser id updatedUser t =>
      refine ⟨reset, ?_, hused⟩
      simp only [runStoreOp, updateUser]
      split <;> exact hstored
    | createRole role t => exact ⟨reset, hstored, hused⟩
    | createProfile profile t => exact ⟨reset, hstored, hused⟩
    | updateProfile id updatedProfile t => exact ⟨reset, hstored, hused⟩
    | createTeam team t1 t2 => exact ⟨reset, hstored, hused⟩
    | addTeamMember member t1 t2 =>
      refine ⟨reset, ?_, hused⟩
      simp only [runStoreOp, addTeamMember]
      split <;> exact hstored
    | createAuditLog log t => exact ⟨reset, hstored, hused⟩
    | createPasswordReset supplied t =>
      by_cases htok : supplied.Token = token
      · refine ⟨{ supplied with CreatedAt := t }, ?_, hop supplied t rfl htok⟩
        simp [runStoreOp, createPasswordReset, mapInsert, htok]
      · refine ⟨reset, ?_, hused⟩
        have hne : token ≠ supplied.Token := fun heq => htok heq.symm
        simp [runStoreOp, createPasswordReset, mapInsert, hne, hstored]
    | markPasswordResetAsUsed token2 =>
      cases hget : s.passwordResets token2 with
      | none =>
        refine ⟨reset, ?_, hused⟩
        simp [runStoreOp, markPasswordResetAsUsed, hget, hstored]
      | some other =>
        by_cases htok : token = token2
        · refine ⟨{ other with Used := true }, ?_, rfl⟩
          simp [runStoreOp, markPasswordResetAsUsed, hget, mapInsert, htok]
        · refine ⟨reset, ?_, hused⟩
          simp [runStoreOp, markPasswordResetAsUsed, hget, mapInsert, htok, hstored]
    | createSession session t1 t2 => exact ⟨reset, hstored, hused⟩
    | deleteSession token2 => exact ⟨reset, hstored, hused⟩
    | createPreferences prefs t => exact ⟨reset, hstored, hused⟩
    | updatePreferences userID updatedPrefs t => exact ⟨reset, hstored, hused⟩
    | createActivityLog log t => exact ⟨reset, hstored, hused⟩
    | createInvitation invitation t => exact ⟨reset, hstored, hused⟩
    | updateInvitationStatus token2 status t =>
      refine ⟨reset, ?_, hused⟩
      simp only [runStoreOp, updateInvitationStatus]
      split <;> exact hstored
    | grantUserPermission userPerm t => exact ⟨reset, hstored, hused⟩
    | revokeUserPermission userID permissionID =>
      refine ⟨reset, ?_, hused⟩
      simp only [runStoreOp, revokeUserPermission]
      split <;> exact hstored
  · intro supplied t
    simp [createPasswordReset, mapInsert]

theorem C8_used_stays_true_witness :
    (∃ after : PasswordReset,
      (runStoreOp sampleUsedResetStore
        (.createPasswordReset { sampleReset with Used := true } 30)).2.passwordResets
        "reset-1" = some after ∧ after.Used = true) ∧
    (∀ (supplied : PasswordReset) (t : Time),
      (createPasswordReset sampleUsedResetStore supplied t).2.passwordResets supplied.Token
        = some { supplied with CreatedAt := t }) :=
  C8_used_stays_true sampleUsedResetStore
    (.createPasswordReset { sampleReset with Used := true } 30) "reset-1"
    { sampleReset with CreatedAt := 10, Used := true } (by decide) rfl
    (by
      intro supplied t hop _
      injection hop with hsupplied _
      rw [← hsupplied])

/-! ## Invitations -/

/-- C9: for a stored invitation with status pending and a clock strictly
after its expires_at, acceptInvitationHandler answers with the 400 response
"Invitation expired"; the stored invitation becomes the same invitation with
status expired, so accepted_at is what it was (unset if it was unset) and the
status is not accepted; a further accept attempt on the same token, at any
clock, answers with the 400 response "Invitation already processed" and
leaves the store, hence the status, unchanged. -/
theorem C9_accept_after_expiry (s : Store) (token : String) (invitation : Invitation)
    (now tAccept : Time)
    (hstored : s.invitations token = some invitation)
    (hpending : invitation.Status = "pending")
    (hexpired : invitation.ExpiresAt < now) :
    (acceptInvitationHandler s token now tAccept).1
      = { status := 400, body := [("error", "Invitation expired")] } ∧
    (∃ after : Invitation,
      (acceptInvitationHandler s token now tAccept).2.invitations token = some after ∧
      after = { invitation with Status := "expired" } ∧
      after.AcceptedAt = invitation.AcceptedAt ∧
      (invitation.AcceptedAt = none → after.AcceptedAt = none) ∧
      after.Status ≠ "accepted") ∧
    (∀ now2 tAccept2 : Time,
      acceptInvitationHandler (acceptInvitationHandler s token now tAccept).2 token now2 tAccept2
        = ({ status := 400, body := [("error", "Invitation already processed")] },
           (acceptInvitationHandler s token now tAccept).2)) := by
  have hafter : (acceptInvitationHandler s token now tAccept).2.invitations token
      = some { invitation with Status := "expired" } := by
    simp [acceptInvitationHandler, getInvitationByToken, hstored, hpending, hexpired,
      updateInvitationStatus, mapInsert]
  have hne : ({ invitation with Status := "expired" } : Invitation).Status ≠ "accepted" := by
    simp
  refine ⟨?_, ⟨_, hafter, rfl, rfl, fun h => h, hne⟩, ?_⟩
  · simp [acceptInvitationHandler, getInvitationByToken, hstored, hpending, hexpired]
  · intro now2 tAccept2
    generalize (acceptInvitationHandler s token now tAccept).2 = s2 at hafter ⊢
    simp [acceptInvitationHandler, getInvitationByToken, hafter]

theorem C9_accept_after_expiry_witness :
    (acceptInvitationHandler sampleInvitationStore "invite-1" 101 102).1
      = { status := 400, body := [("error", "Invitation expired")] } :=
  (C9_accept_after_expiry sampleInvitationStore "invite-1" { sampleInvitation with CreatedAt := 10 }
    101 102 (by decide) (by decide) (by decide)).1

/-- C10, as stated, fails: updateInvitationStatus writes its status argument
without looking at the stored status, so called with "pending" on the
accepted invitation `invite-1` it leaves the invitation pending. -/
theorem C10_status_reverts :
    ¬ ∀ (s : Store) (token status : String) (t : Time) (invitation : Invitation),
      s.invitations token = some invitation →
      (invitation.Status = "accepted" ∨ invitation.Status = "expired" ∨
        invitation.Status = "revoked") →
        ∃ after : Invitation,
          (updateInvitationStatus s token status t).2.invitations token = some after ∧
          after.Status = invitation.Status := by
  intro h
  obtain ⟨after, hstored, hstatus⟩ :=
    h sampleAcceptedStore "invite-1" "pending" 30
      { sampleInvitation with CreatedAt := 10, Status := "accepted", AcceptedAt := some 20 }
      (by decide) (Or.inl rfl)
  have h2 : (updateInvitationStatus sampleAcceptedStore "invite-1" "pending" 30).2.invitations
      "invite-1" = some { sampleInvitation with CreatedAt := 10, AcceptedAt := some 20 } := by
    decide
  rw [h2] at hstored
  rw [← Option.some.inj hstored] at hstatus
  exact absurd hstatus (by decide)

/-- C10, amended: the accept step of acceptInvitationHandler is one-way.  For
an invitation stored under the token, if its status is not pending
(accepted, expired, revoked or anything else) the step answers "Invitation
already processed" and the store, hence the status, is unchanged; if it is
pending, the status after the step is accepted or expired; invitations under
other tokens are not touched.  updateInvitationStatus itself has no guard: it
sets the stored status to its argument whatever the status before, and
createInvitation stores the supplied invitation under its token whatever was
stored there. -/
theorem C10_accept_step_one_way (s : Store) (token : String) (invitation : Invitation)
    (now tAccept : Time) (hstored : s.invitations token = some invitation) :
    (invitation.Status ≠ "pending" →
      acceptInvitationHandler s token now tAccept
        = ({ status := 400, body := [("error", "Invitation already processed")] }, s)) ∧
    (invitation.Status = "pending" →
      ∃ after : Invitation,
        (acceptInvitationHandler s token now tAccept).2.invitations token = some after ∧
        (after.Status = "accepted" ∨ after.Status = "expired")) ∧
    (∀ other : String, other ≠ token →
      (acceptInvitationHandler s token now tAccept).2.invitations other = s.invitations other) ∧
    (∀ (status : String) (t : Time), ∃ after : Invitation,
      (updateInvitationStatus s token status t).2.invitations token = some after ∧
      after.Status = status) ∧
    (∀ (supplied : Invitation) (t : Time),
      (createInvitation s supplied t).2.invitations supplied.Token
        = some { supplied with CreatedAt := t }) := by
  refine ⟨?_, ?_, ?_, ?_, ?_⟩
  · intro hnp
    simp [acceptInvitationHandler, getInvitationByToken, hstored, hnp]
  · intro hp
    by_cases hexp : invitation.ExpiresAt < now
    · refine ⟨{ invitation with Status := "expired" }, ?_, Or.inr rfl⟩
      simp [acceptInvitationHandler, getInvitationByToken, hstored, hp, hexp,
        updateInvitationStatus, mapInsert]
    · refine ⟨{ invitation with Status := "accepted", AcceptedAt := some tAccept }, ?_, Or.inl rfl⟩
      simp [acceptInvitationHandler, getInvitationByToken, hstored, hp, hexp,
        updateInvitationStatus, mapInsert]
  · intro other hne
    by_cases hp : invitation.Status = "pending"
    · by_cases hexp : invitation.ExpiresAt < now
      · simp [acceptInvitationHandler, getInvitationByToken, hstored, hp, hexp,
          updateInvitationStatus, mapInsert, hne]
      · simp [acceptInvitationHandler, getInvitationByToken, hstored, hp, hexp,
          updateInvitationStatus, mapInsert, hne]
    · simp [acceptInvitationHandler, getInvitationByToken, hstored, hp]
  · intro status t
    by_cases hacc : status = "accepted"
    · refine ⟨{ invitation with Status := status, AcceptedAt := some t }, ?_, rfl⟩
      simp [updateInvitationStatus, hstored, mapInsert, hacc]
    · refine ⟨{ invitation with Status := status }, ?_, rfl⟩
      simp [updateInvitationStatus, hstored, mapInsert, hacc]
  · intro supplied t
    simp [createInvitation, mapInsert]

theorem C10_accept_step_one_way_witness :
    acceptInvitationHandler sampleAcceptedStore "invite-1" 200 201
        = ({ status := 400, body := [("error", "Invitation already processed")] },
           sampleAcceptedStore) ∧
    (∃ after : Invitation,
      (acceptInvitationHandler sampleInvitationStore "invite-1" 20 20).2.invitations "invite-1"
        = some after ∧
      (after.Status = "accepted" ∨ after.Status = "expired")) :=
  ⟨(C10_accept_step_one_way sampleAcceptedStore "invite-1"
      { sampleInvitation with CreatedAt := 10, Status := "accepted", AcceptedAt := some 20 }
      200 201 (by decide)).1 (by decide),
   (C10_accept_step_one_way sampleInvitationStore "invite-1"
      { sampleInvitation with CreatedAt := 10 } 20 20 (by decide)).2.1 (by decide)⟩

/-! ## Operations on a missing key -/

theorem missing_key_reported (s : Store) :
    (∀ (id : String) (updatedUser : User) (t : Time), s.users id = none →
      updateUser s id updatedUser t = (some "user not found", s)) ∧
    (∀ token : String, s.passwordResets token = none →
      markPasswordResetAsUsed s token = (some "reset token not found", s)) ∧
    (∀ (token status : String) (t : Time), s.invitations token = none →
      updateInvitationStatus s token status t = (some "invitation not found", s)) ∧
    (∀ token : String, s.sessions token = none → (deleteSession s token).2 = s) := by
  refine ⟨?_, ?_, ?_, ?_⟩
  · intro id updatedUser t h
    simp [updateUser, h]
  · intro token h
    simp [markPasswordResetAsUsed, h]
  · intro token status t h
    simp [updateInvitationStatus, h]
  · intro token h
    have hmap : mapDelete s.sessions token = s.sessions := by
      funext key
      by_cases hk : key = token
      · simp [mapDelete, hk, h]
      · simp [mapDelete, hk]
    simp [deleteSession, hmap]

/-- C11 at the failing inputs: on the empty store, where no key is present,
updateProfile and updatePreferences return no error and store the supplied
record under the missing key, and deleteSession returns no error. -/
theorem C11_missing_key_not_reported :
    emptyStore.profiles "profile-9" = none ∧
    (updateProfile emptyStore "profile-9" (sampleProfile "profile-9") 5).1 = none ∧
    (updateProfile emptyStore "profile-9" (sampleProfile "profile-9") 5).2.profiles "profile-9"
      = some { sampleProfile "profile-9" with UpdatedAt := 5 } ∧
    emptyStore.preferences "user-1" = none ∧
    (updatePreferences emptyStore "user-1" samplePreferences 5).1 = none ∧
    (updatePreferences emptyStore "user-1" samplePreferences 5).2.preferences "user-1"
      = some { samplePreferences with UpdatedAt := 5 } ∧
    emptyStore.sessions "session-9" = none ∧
    (deleteSession emptyStore "session-9").1 = none := by
  decide

/-! ## Server-assigned timestamps -/

/-- C12, as stated, fails for updateUser: it sets updated_at only, so two
inputs that differ only in created_at are stored with different created_at
values. -/
theorem C12_updateUser_keeps_supplied_created_at :
    ¬ ∀ (s : Store) (op1 op2 : StoreOp), eraseTimestamps op1 = eraseTimestamps op2 →
      runStoreOp s op1 = runStoreOp s op2 := by
  intro h
  have h1 := h sampleUserStore
    (.updateUser "user-1" { sampleUser with CreatedAt := 111 } 5)
    (.updateUser "user-1" { sampleUser with CreatedAt := 222 } 5) rfl
  have h2 := congrArg (fun r => (r.2.users "user-1").map (fun user => user.CreatedAt)) h1
  revert h2
  decide

/-- C12, amended: for every store state and every store mutation other than
updateUser, the result of the operation (returned error and store after it) is
the same for two inputs that differ only in the fields created_at,
updated_at, granted_at and joined_at of the input entity, so the stored
timestamps come from the server clock alone.  updateUser sets updated_at from
the server clock and stores every other field of its input, created_at
included: its result is the same for two inputs that differ only in
updated_at, and the stored created_at is the supplied one. -/
theorem C12_timestamps_server_assigned (s : Store) :
    (∀ op1 op2 : StoreOp, eraseTimestamps op1 = eraseTimestamps op2 →
      (∀ (id : String) (updatedUser : User) (t : Time), op1 ≠ .updateUser id updatedUser t) →
      runStoreOp s op1 = runStoreOp s op2) ∧
    (∀ (id : String) (user1 user2 : User) (t : Time),
      ({ user1 with UpdatedAt := 0 } : User) = { user2 with UpdatedAt := 0 } →
      updateUser s id user1 t = updateUser s id user2 t) ∧
    (∀ (id : String) (updatedUser : User) (t : Time), (s.users id).isSome = true →
      (updateUser s id updatedUser t).2.users id = some { updatedUser with UpdatedAt := t }) := by
  refine ⟨?_, ?_, ?_⟩
  · intro op1 op2 h hnot
    cases op1 <;> cases op2 <;> simp only [eraseTimestamps, reduceCtorEq] at h
    all_goals first
      | exact absurd rfl (hnot _ _ _)
      | (simp at h
         simp only [runStoreOp, createUser, createRole, createProfile, updateProfile, createTeam,
           addTeamMember, createAuditLog, createPasswordReset, markPasswordResetAsUsed,
           createSession, deleteSession, createPreferences, updatePreferences, createActivityLog,
           createInvitation, updateInvitationStatus, grantUserPermission, revokeUserPermission]
         simp_all)
  · intro id user1 user2 t h
    simp at h
    simp only [updateUser]
    simp_all
  · intro id updatedUser t h
    simp [updateUser, h, mapInsert]

theorem C12_timestamps_server_assigned_witness :
    runStoreOp sampleUserStore (.createUser { sampleUser with ID := "user-2", CreatedAt := 111 } 5 6)
        = runStoreOp sampleUserStore
            (.createUser { sampleUser with ID := "user-2", CreatedAt := 222, UpdatedAt := 333 } 5 6) ∧
    updateUser sampleUserStore "user-1" { sampleUser with UpdatedAt := 111 } 5
        = updateUser sampleUserStore "user-1" { sampleUser with UpdatedAt := 222 } 5 ∧
    (updateUser sampleUserStore "user-1" { sampleUser with CreatedAt := 111 } 5).2.users "user-1"
        = some { sampleUser with CreatedAt := 111, UpdatedAt := 5 } :=
  ⟨(C12_timestamps_server_assigned sampleUserStore).1 _ _ rfl
      (fun _ _ _ hop => StoreOp.noConfusion hop),
   (C12_timestamps_server_assigned sampleUserStore).2.1 "user-1" _ _ 5 rfl,
   (C12_timestamps_server_assigned sampleUserStore).2.2 "user-1" _ 5 (by decide)⟩

/-! ## Append-only logs -/

/-- C13: for every store state and every store operation, the audit log and
the activity log before the operation are prefixes of the respective logs
after it.  createAuditLog makes the audit log the old log followed by exactly
the new entry (with created_at set) and leaves the activity log unchanged;
createActivityLog does the same for the activity log and leaves the audit log
unchanged; every other operation leaves both logs unchanged. -/
theorem C13_logs_append_only (s : Store) (op : StoreOp) :
    s.auditLogs <+: (runStoreOp s op).2.auditLogs ∧
    s.activityLogs <+: (runStoreOp s op).2.activityLogs ∧
    (∀ (log : AuditLog) (t : Time), op = .createAuditLog log t →
      (runStoreOp s op).2.auditLogs = s.auditLogs ++ [{ log with CreatedAt := t }] ∧
      (runStoreOp s op).2.activityLogs = s.activityLogs) ∧
    (∀ (log : ActivityLog) (t : Time), op = .createActivityLog log t →
      (runStoreOp s op).2.activityLogs = s.activityLogs ++ [{ log with CreatedAt := t }] ∧
      (runStoreOp s op).2.auditLogs = s.auditLogs) ∧
    ((∀ (log : AuditLog) (t : Time), op ≠ .createAuditLog log t) →
      (∀ (log : ActivityLog) (t : Time), op ≠ .createActivityLog log t) →
      (runStoreOp s op).2.auditLogs = s.auditLogs ∧
      (runStoreOp s op).2.activityLogs = s.activityLogs) := by
  cases op with
  | createAuditLog log t =>
    refine ⟨?_, ?_, ?_, ?_, ?_⟩
    · exact List.prefix_append _ _
    · exact List.prefix_refl _
    · intro log2 t2 h
      injection h with hlog ht
      subst hlog
      subst ht
      exact ⟨rfl, rfl⟩
    · intro log2 t2 h
      exact StoreOp.noConfusion h
    · intro h _
      exact absurd rfl (h log t)
  | createActivityLog log t =>
    refine ⟨?_, ?_, ?_, ?_, ?_⟩
    · exact List.prefix_refl _
    · exact List.prefix_append _ _
    · intro log2 t2 h
      exact StoreOp.noConfusion h
    · intro log2 t2 h
      injection h with hlog ht
      subst hlog
      subst ht
      exact ⟨rfl, rfl⟩
    · intro _ h
      exact absurd rfl (h log t)
  | createUser user t1 t2 =>
    have ha : (runStoreOp s (.createUser user t1 t2)).2.auditLogs = s.auditLogs := by
      simp only [runStoreOp, createUser]
      split <;> rfl
    have hb : (runStoreOp s (.createUser user t1 t2)).2.activityLogs = s.activityLogs := by
      simp only [runStoreOp, createUser]
      split <;> rfl
    rw [ha, hb]
    exact ⟨List.prefix_refl _, List.prefix_refl _, fun _ _ h => StoreOp.noConfusion h,
      fun _ _ h => StoreOp.noConfusion h, fun _ _ => ⟨rfl, rfl⟩⟩
  | updateUser id updatedUser t =>
    have ha : (runStoreOp s (.updateUser id updatedUser t)).2.auditLogs = s.auditLogs := by
      simp only [runStoreOp, updateUser]
      split <;> rfl
    have hb : (runStoreOp s (.updateUser id updatedUser t)).2.activityLogs = s.activityLogs := by
      simp only [runStoreOp, updateUser]
      split <;> rfl
    rw [ha, hb]
    exact ⟨List.prefix_refl _, List.prefix_refl _, fun _ _ h => StoreOp.noConfusion h,
      fun _ _ h => StoreOp.noConfusion h, fun _ _ => ⟨rfl, rfl⟩⟩
  | addTeamMember member t1 t2 =>
    have ha : (runStoreOp s (.addTeamMember member t1 t2)).2.auditLogs = s.auditLogs := by
      simp only [runStoreOp, addTeamMember]
      split <;> rfl
    have hb : (runStoreOp s (.addTeamMember member t1 t2)).2.activityLogs = s.activityLogs := by
      simp only [runStoreOp, addTeamMember]
      split <;> rfl
    rw [ha, hb]
    exact ⟨List.prefix_refl _, List.prefix_refl _, fun _ _ h => StoreOp.noConfusion h,
      fun _ _ h => StoreOp.noConfusion h, fun _ _ => ⟨rfl, rfl⟩⟩
  | markPasswordResetAsUsed token =>
    have ha : (runStoreOp s (.markPasswordResetAsUsed token)).2.auditLogs = s.auditLogs := by
      simp only [runStoreOp, markPasswordResetAsUsed]
      split <;> rfl
    have hb : (runStoreOp s (.markPasswordResetAsUsed token)).2.activityLogs = s.activityLogs := by
      simp only [runStoreOp, markPasswordResetAsUsed]
      split <;> rfl
    rw [ha, hb]
    exact ⟨List.prefix_refl _, List.prefix_refl _, fun _ _ h => StoreOp.noConfusion h,
      fun _ _ h => StoreOp.noConfusion h, fun _ _ => ⟨rfl, rfl⟩⟩
  | updateInvitationStatus token status t =>
    have ha : (runStoreOp s (.updateInvitationStatus token status t)).2.auditLogs
        = s.auditLogs := by
      simp only [runStoreOp, updateInvitationStatus]
      split <;> rfl
    have hb : (runStoreOp s (.updateInvitationStatus token status t)).2.activityLogs
        = s.activityLogs := by
      simp only [runStoreOp, updateInvitationStatus]
      split <;> rfl
    rw [ha, hb]
    exact ⟨List.prefix_refl _, List.prefix_refl _, fun _ _ h => StoreOp.noConfusion h,
      fun _ _ h => StoreOp.noConfusion h, fun _ _ => ⟨rfl, rfl⟩⟩
  | revokeUserPermission userID permissionID =>
    have ha : (runStoreOp s (.revokeUserPermission userID permissionID)).2.auditLogs
        = s.auditLogs := by
      simp only [runStoreOp, revokeUserPermission]
      split <;> rfl
    have hb : (runStoreOp s (.revokeUserPermission userID permissionID)).2.activityLogs
        = s.activityLogs := by
      simp only [runStoreOp, revokeUserPermission]
      split <;> rfl
    rw [ha, hb]
    exact ⟨List.prefix_refl _, List.prefix_refl _, fun _ _ h => StoreOp.noConfusion h,
      fun _ _ h => StoreOp.noConfusion h, fun _ _ => ⟨rfl, rfl⟩⟩
  | _ =>
    exact ⟨List.prefix_refl _, List.prefix_refl _, fun _ _ h => StoreOp.noConfusion h,
      fun _ _ h => StoreOp.noConfusion h, fun _ _ => ⟨rfl, rfl⟩⟩

theorem C13_logs_append_only_witness :
    (runStoreOp sampleAuditStore (.createAuditLog (sampleAudit "d") 9)).2.auditLogs
        = sampleAuditStore.auditLogs ++ [{ sampleAudit "d" with CreatedAt := 9 }] ∧
    (runStoreOp sampleAuditStore (.createAuditLog (sampleAudit "d") 9)).2.activityLogs
        = sampleAuditStore.activityLogs ∧
    (runStoreOp sampleAuditStore (.deleteSession "session-1")).2.auditLogs
        = sampleAuditStore.auditLogs :=
  ⟨((C13_logs_append_only sampleAuditStore (.createAuditLog (sampleAudit "d") 9)).2.2.1
      (sampleAudit "d") 9 rfl).1,
   ((C13_logs_append_only sampleAuditStore (.createAuditLog (sampleAudit "d") 9)).2.2.1
      (sampleAudit "d") 9 rfl).2,
   ((C13_logs_append_only sampleAuditStore (.deleteSession "session-1")).2.2.2.2
      (fun _ _ h => StoreOp.noConfusion h) (fun _ _ h => StoreOp.noConfusion h)).1⟩

/-! ## Identifier generation -/

theorem hextable_digit (n : Fin 16) :
    hextable.data.getD n.val '0' = lowercaseHexDigit n.val := by
  revert n
  decide

theorem lowercaseHexDigit_isHex (n : Fin 16) : IsLowercaseHexChar (lowercaseHexDigit n.val) := by
  revert n
  unfold IsLowercaseHexChar
  decide

theorem lowercaseHexDigit_utf8Size (n : Fin 16) : (lowercaseHexDigit n.val).utf8Size = 1 := by
  revert n
  decide

theorem lowercaseHexDigit_injective (i j : Fin 16)
    (h : lowercaseHexDigit i.val = lowercaseHexDigit j.val) : i = j := by
  revert i j
  decide

theorem hexEncode_eq_spec (bytes : List (Fin 256)) : hexEncode bytes = lowercaseHexSpec bytes := by
  induction bytes with
  | nil => rfl
  | cons b rest ih =>
    have hhi : b.val / 16 < 16 := by omega
    have hlo : b.val % 16 < 16 := by omega
    rw [hexEncode, lowercaseHexSpec, ih, hextable_digit ⟨b.val / 16, hhi⟩,
      hextable_digit ⟨b.val % 16, hlo⟩]

theorem lowercaseHexSpec_length (bytes : List (Fin 256)) :
    (lowercaseHexSpec bytes).length = 2 * bytes.length := by
  induction bytes with
  | nil => rfl
  | cons b rest ih =>
    simp only [lowercaseHexSpec, List.length_cons, ih]
    omega

theorem lowercaseHexSpec_chars (bytes : List (Fin 256)) :
    ∀ c ∈ lowercaseHexSpec bytes, IsLowercaseHexChar c ∧ c.utf8Size = 1 := by
  induction bytes with
  | nil =>
    intro c hc
    exact absurd hc (List.not_mem_nil _)
  | cons b rest ih =>
    intro c hc
    have hhi : b.val / 16 < 16 := by omega
    have hlo : b.val % 16 < 16 := by omega
    simp only [lowercaseHexSpec, List.mem_cons] at hc
    rcases hc with h | h | h
    · rw [h]
      exact ⟨lowercaseHexDigit_isHex ⟨b.val / 16, hhi⟩, lowercaseHexDigit_utf8Size ⟨b.val / 16, hhi⟩⟩
    · rw [h]
      exact ⟨lowercaseHexDigit_isHex ⟨b.val % 16, hlo⟩, lowercaseHexDigit_utf8Size ⟨b.val % 16, hlo⟩⟩
    · exact ih c h

theorem lowercaseHexSpec_utf8Len (bytes : List (Fin 256)) :
    String.utf8Len (lowercaseHexSpec bytes) = 2 * bytes.length := by
  induction bytes with
  | nil => rfl
  | cons b rest ih =>
    have hhi : b.val / 16 < 16 := by omega
    have hlo : b.val % 16 < 16 := by omega
    have h1 := lowercaseHexDigit_utf8Size ⟨b.val / 16, hhi⟩
    have h2 := lowercaseHexDigit_utf8Size ⟨b.val % 16, hlo⟩
    simp only [] at h1 h2
    simp only [lowercaseHexSpec, String.utf8Len_cons, ih, h1, h2, List.length_cons]
    omega

theorem lowercaseHexSpec_injective :
    ∀ bytes1 bytes2 : List (Fin 256),
      lowercaseHexSpec bytes1 = lowercaseHexSpec bytes2 → bytes1 = bytes2 := by
  intro bytes1
  induction bytes1 with
  | nil =>
    intro bytes2 h
    cases bytes2 with
    | nil => rfl
    | cons b rest => simp [lowercaseHexSpec] at h
  | cons a rest1 ih =>
    intro bytes2 h
    cases bytes2 with
    | nil => simp [lowercaseHexSpec] at h
    | cons b rest2 =>
      simp only [lowercaseHexSpec, List.cons.injEq] at h
      obtain ⟨hhi, hlo, hrest⟩ := h
      have h1 := lowercaseHexDigit_injective ⟨a.val / 16, by omega⟩ ⟨b.val / 16, by omega⟩ hhi
      have h2 := lowercaseHexDigit_injective ⟨a.val % 16, by omega⟩ ⟨b.val % 16, by omega⟩ hlo
      have hab : a = b := by
        apply Fin.ext
        have e1 := congrArg Fin.val h1
        have e2 := congrArg Fin.val h2
        simp only [] at e1 e2
        omega
      rw [hab, ih rest2 hrest]

theorem utf8ByteSize_eq_utf8Len (str : String) : str.utf8ByteSize = String.utf8Len str.data := by
  cases str
  rfl

/-- C14: for every prefix string and every 8 random bytes, generateID returns
the prefix followed by "-" followed by the lowercase hexadecimal encoding of
the 8 bytes in order: exactly 16 characters, each in 0-9 or a-f.  The result
is 17 longer than the prefix, counted in characters and counted in bytes as
Go's len does, and two calls with the same prefix return equal IDs exactly
when the random bytes are equal. -/
theorem C14_generateID_format (pfx : String) (bytes : RandomBytes) :
    generateID pfx bytes = pfx ++ "-" ++ String.mk (lowercaseHexSpec bytes.data) ∧
    (lowercaseHexSpec bytes.data).length = 16 ∧
    (∀ c ∈ lowercaseHexSpec bytes.data, IsLowercaseHexChar c) ∧
    (generateID pfx bytes).length = pfx.length + 17 ∧
    (generateID pfx bytes).utf8ByteSize = pfx.utf8ByteSize + 17 ∧
    (∀ other : RandomBytes,
      generateID pfx bytes = generateID pfx other ↔ bytes.data = other.data) := by
  have hgen : ∀ b : RandomBytes,
      generateID pfx b = pfx ++ "-" ++ String.mk (lowercaseHexSpec b.data) := by
    intro b
    simp only [generateID, hexEncodeToString, hexEncode_eq_spec]
  have hlen : (lowercaseHexSpec bytes.data).length = 16 := by
    rw [lowercaseHexSpec_length, bytes.size_eq]
  refine ⟨hgen bytes, hlen, ?_, ?_, ?_, ?_⟩
  · intro c hc
    exact (lowercaseHexSpec_chars bytes.data c hc).1
  · have h1 : (String.mk (lowercaseHexSpec bytes.data)).length = 16 := hlen
    have h2 : ("-" : String).length = 1 := rfl
    rw [hgen bytes, String.length_append, String.length_append, h1, h2]
  · rw [hgen bytes, utf8ByteSize_eq_utf8Len, utf8ByteSize_eq_utf8Len, String.data_append,
      String.data_append, String.utf8Len_append, String.utf8Len_append,
      lowercaseHexSpec_utf8Len, bytes.size_eq]
    rfl
  · intro other
    constructor
    · intro h
      rw [hgen bytes, hgen other, String.ext_iff, String.data_append, String.data_append] at h
      have h2 := List.append_cancel_left h
      exact lowercaseHexSpec_injective _ _ h2
    · intro h
      rw [hgen bytes, hgen other, h]

theorem C14_generateID_format_witness :
    generateID "user" sampleBytes = "user-00010f10ffab0980" ∧
    IsLowercaseHexChar 'f' :=
  ⟨(C14_generateID_format "user" sampleBytes).1.trans (by decide),
   (C14_generateID_format "user" sampleBytes).2.2.1 'f' (by decide)⟩

/-! ## Deleting a session -/

/-- C15: after deleteSession(token), getSessionByToken(token) returns the
error "session not found"; the lookup of every other token gives what it gave
before, so every session stored under a different token is unchanged and
still retrievable; and every other collection of the store is unchanged.
deleteSession itself returns no error. -/
theorem C15_deleteSession_frame (s : Store) (token : String) :
    (deleteSession s token).1 = none ∧
    getSessionByToken (deleteSession s token).2 token = .error "session not found" ∧
    (∀ other : String, other ≠ token →
      (deleteSession s token).2.sessions other = s.sessions other ∧
      getSessionByToken (deleteSession s token).2 other = getSessionByToken s other) ∧
    (∀ (other : String) (session : Session), other ≠ token → s.sessions other = some session →
      getSessionByToken (deleteSession s token).2 other = .ok session) ∧
    (deleteSession s token).2 = { s with sessions := (deleteSession s token).2.sessions } := by
  refine ⟨rfl, ?_, ?_, ?_, rfl⟩
  · simp [deleteSession, getSessionByToken, mapDelete]
  · intro other hne
    simp [deleteSession, getSessionByToken, mapDelete, hne]
  · intro other session hne hstored
    simp [deleteSession, getSessionByToken, mapDelete, hne, hstored]

theorem C15_deleteSession_frame_witness :
    getSessionByToken (deleteSession sampleSessionStore "session-1").2 "session-2"
      = .ok { sampleSession "session-2" with CreatedAt := 12, LastActivity := 13 } :=
  (C15_deleteSession_frame sampleSessionStore "session-1").2.2.2.1 "session-2"
    { sampleSession "session-2" with CreatedAt := 12, LastActivity := 13 } (by decide) (by decide)

/-! ## Profile lookup by user -/

theorem getProfileByUserIDLoop_found (profiles : String → Option UserProfile) (userID : String) :
    ∀ order : List String,
      (∃ key ∈ order, ∃ profile, profiles key = some profile ∧ profile.UserID = userID) →
      ∃ key ∈ order, ∃ profile,
        profiles key = some profile ∧ profile.UserID = userID ∧
        getProfileByUserIDLoop profiles userID order = .ok profile := by
  intro order
  induction order with
  | nil =>
    intro h
    obtain ⟨key, hmem, _⟩ := h
    exact absurd hmem (List.not_mem_nil _)
  | cons first rest ih =>
    intro h
    cases hfirst : profiles first with
    | some profile =>
      by_cases hu : profile.UserID = userID
      · refine ⟨first, List.mem_cons_self _ _, profile, hfirst, hu, ?_⟩
        simp [getProfileByUserIDLoop, hfirst, hu]
      · obtain ⟨key, hmem, found, hstored, hfu⟩ := h
        have hrest : key ∈ rest := by
          rcases List.mem_cons.mp hmem with heq | hin
          · rw [heq, hfirst] at hstored
            rw [← Option.some.inj hstored] at hfu
            exact absurd hfu hu
          · exact hin
        obtain ⟨key2, hmem2, found2, hstored2, hfu2, hloop⟩ := ih ⟨key, hrest, found, hstored, hfu⟩
        refine ⟨key2, List.mem_cons_of_mem _ hmem2, found2, hstored2, hfu2, ?_⟩
        simp [getProfileByUserIDLoop, hfirst, hu, hloop]
    | none =>
      obtain ⟨key, hmem, found, hstored, hfu⟩ := h
      have hrest : key ∈ rest := by
        rcases List.mem_cons.mp hmem with heq | hin
        · rw [heq, hfirst] at hstored
          exact Option.noConfusion hstored
        · exact hin
      obtain ⟨key2, hmem2, found2, hstored2, hfu2, hloop⟩ := ih ⟨key, hrest, found, hstored, hfu⟩
      refine ⟨key2, List.mem_cons_of_mem _ hmem2, found2, hstored2, hfu2, ?_⟩
      simp [getProfileByUserIDLoop, hfirst, hloop]

/-- C16, as stated, fails: with the profile `profile-1` of `user-1` stored,
createProfile of a second profile `profile-2` of `user-1` followed by
getProfileByUserID("user-1") returns `profile-1` when the map iteration visits
`profile-1` first, which is an iteration order that Go allows. -/
theorem C16_other_profile_returned :
    IsIterationOrder (createProfile sampleProfileStore (sampleProfile "profile-2") 20).2.profiles
      ["profile-1", "profile-2"] ∧
    getProfileByUserID (createProfile sampleProfileStore (sampleProfile "profile-2") 20).2
      ["profile-1", "profile-2"] "user-1"
      = .ok { sampleProfile "profile-1" with UpdatedAt := 10 } ∧
    getProfileByUserID (createProfile sampleProfileStore (sampleProfile "profile-2") 20).2
      ["profile-1", "profile-2"] "user-1"
      ≠ .ok { sampleProfile "profile-2" with UpdatedAt := 20 } := by
  have hfirst : getProfileByUserID
      (createProfile sampleProfileStore (sampleProfile "profile-2") 20).2
      ["profile-1", "profile-2"] "user-1"
      = .ok { sampleProfile "profile-1" with UpdatedAt := 10 } := rfl
  have hdiff : ({ sampleProfile "profile-1" with UpdatedAt := 10 } : UserProfile)
      ≠ { sampleProfile "profile-2" with UpdatedAt := 20 } := by decide
  refine ⟨⟨by decide, ?_⟩, hfirst, ?_⟩
  · intro key
    by_cases h2 : key = "profile-2"
    · simp [h2, createProfile, sampleProfileStore, sampleProfile, mapInsert]
    · by_cases h1 : key = "profile-1"
      · simp [h1, createProfile, sampleProfileStore, sampleProfile, mapInsert]
      · simp [h1, h2, createProfile, sampleProfileStore, sampleProfile, mapInsert, emptyStore]
  · rw [hfirst]
    intro h
    exact hdiff (Except.ok.inj h)

/-- C16, amended: for every store state, profile p and iteration order of the
profiles map, getProfileByUserID(p.UserID) called immediately after
createProfile(p) succeeds and returns a stored profile whose UserID is
p.UserID; it returns p (with updated_at set by createProfile) whenever no
profile stored under a different ID has the same UserID. -/
theorem C16_profile_after_create (s : Store) (profile : UserProfile) (t : Time)
    (order : List String)
    (horder : IsIterationOrder (createProfile s profile t).2.profiles order) :
    (∃ found : UserProfile,
      getProfileByUserID (createProfile s profile t).2 order profile.UserID = .ok found ∧
      found.UserID = profile.UserID ∧
      ∃ key, (createProfile s profile t).2.profiles key = some found) ∧
    ((∀ (id : String) (other : UserProfile), id ≠ profile.ID → s.profiles id = some other →
        other.UserID ≠ profile.UserID) →
      getProfileByUserID (createProfile s profile t).2 order profile.UserID
        = .ok { profile with UpdatedAt := t }) := by
  have hstored : (createProfile s profile t).2.profiles profile.ID
      = some { profile with UpdatedAt := t } := by
    simp [createProfile, mapInsert]
  have hmem : profile.ID ∈ order := by
    rw [horder.2, hstored]
    rfl
  obtain ⟨key, _, found, hfound, hfu, hloop⟩ :=
    getProfileByUserIDLoop_found (createProfile s profile t).2.profiles profile.UserID order
      ⟨profile.ID, hmem, _, hstored, rfl⟩
  refine ⟨⟨found, hloop, hfu, key, hfound⟩, ?_⟩
  intro hunique
  have hkey : key = profile.ID := by
    by_contra hne
    have hold : s.profiles key = some found := by
      simpa [createProfile, mapInsert, hne] using hfound
    exact hunique key found hne hold hfu
  rw [hkey, hstored] at hfound
  rw [← Option.some.inj hfound] at hloop
  exact hloop

theorem C16_profile_after_create_witness :
    getProfileByUserID (createProfile emptyStore (sampleProfile "profile-1") 10).2
      ["profile-1"] "user-1" = .ok { sampleProfile "profile-1" with UpdatedAt := 10 } :=
  (C16_profile_after_create emptyStore (sampleProfile "profile-1") 10 ["profile-1"]
    ⟨by decide, by
      intro key
      by_cases h1 : key = "profile-1"
      · simp [h1, createProfile, sampleProfile, mapInsert]
      · simp [h1, createProfile, sampleProfile, mapInsert, emptyStore]⟩).2
    (by
      intro id other _ hstored
      exact Option.noConfusion hstored)

/-! ## Range of the audit-log window -/

theorem getAuditLogs_eq_start (s : Store) (limit : Int) :
    getAuditLogs s limit
      = if 0 ≤ getAuditLogsStart s limit ∧ getAuditLogsStart s limit ≤ (s.auditLogs.length : Int)
        then some (s.auditLogs.drop (getAuditLogsStart s limit).toNat) else none :=
  rfl

theorem getAuditLogs_negative_limit (s : Store) (limit : Int) (hneg : limit < 0)
    (hfit : (s.auditLogs.length : Int) - limit < 2 ^ 63) :
    getAuditLogsStart s limit = (s.auditLogs.length : Int) - limit ∧
    (s.auditLogs.length : Int) < getAuditLogsStart s limit ∧
    getAuditLogs s limit = none := by
  have hstart : getAuditLogsStart s limit = (s.auditLogs.length : Int) - limit := by
    unfold getAuditLogsStart
    simp only []
    have hgt : ¬ limit > (s.auditLogs.length : Int) := by omega
    rw [if_neg hgt, wrapInt64_of_range _ (by omega) hfit, if_neg (by omega)]
  refine ⟨hstart, by omega, ?_⟩
  rw [getAuditLogs_eq_start, if_neg]
  omega

/-- C17 at the failing input: for the audit log of three entries and
limit = -1 (the request `GET /audit-logs?limit=-1`, whose limit
getAuditLogsHandler passes on unchanged) the start index is 4, beyond the log
length 3, so the slice expression is out of range and neither getAuditLogs
nor the handler returns a list; on the empty log the start index is 1 and the
call fails in the same way. -/
theorem C17_negative_limit_out_of_range :
    (sampleAuditStore.auditLogs.length : Int) = 3 ∧
    getAuditLogsStart sampleAuditStore (-1) = 4 ∧
    getAuditLogs sampleAuditStore (-1) = none ∧
    getAuditLogsHandler sampleAuditStore (.ok (-1)) = none ∧
    getAuditLogsStart emptyStore (-1) = 1 ∧
    getAuditLogs emptyStore (-1) = none := by
  decide

end UsersManagement
